import Mathlib

/-!
Verification development for the account-persistence core of
telepathy-mission-control (`mcd-storage.c`, concatenated into
`src/src/mcd-debug.c` in this source drop).

The embedding models C strings as `List Char` (C strings cannot contain the
NUL character; the model simply never distinguishes it).  GLib hash tables
(`GHashTable` with string keys) are modelled as association lists with the
usual lookup/insert/remove operations; hash tables have unique keys, which
the theorems assume where it matters.

The keyfile codec (`mcd_keyfile_escape_variant` / `mcd_keyfile_get_variant`)
goes through GLib's `GKeyFile`.  The relevant `GKeyFile` primitives
(`g_key_file_parse_string_as_value`, `g_key_file_parse_value_as_string`,
`g_key_file_set_string_list`, the integer/boolean getters) are part of the
platform library, and are embedded here following their documented and
implemented semantics.  `mcd_keyfile_escape_variant` builds a fresh
`GKeyFile`, whose list separator is the GLib default character.

`GVariant` values are modelled by the closed sum `MVariant` below covering
exactly the variant classes that `mcd_keyfile_set_variant` /
`mcd_keyfile_get_variant` handle, except for `G_VARIANT_CLASS_DOUBLE`
(floating point is outside the scope of this embedding) and
`G_VARIANT_CLASS_SIGNATURE` (stored verbatim like strings, never produced
by this subsystem).
-/

/-- C strings as lists of characters. -/
abbrev CStr := List Char

/-- Association-list lookup, modelling `g_hash_table_lookup`. -/
def alist_lookup {α : Type} (k : CStr) : List (CStr × α) → Option α
  | [] => none
  | (k2, v) :: rest => if k = k2 then some v else alist_lookup k rest

/-- Association-list insert-or-replace, modelling `g_hash_table_insert`. -/
def alist_insert {α : Type} (k : CStr) (v : α) : List (CStr × α) → List (CStr × α)
  | [] => [(k, v)]
  | (k2, w) :: rest =>
      if k = k2 then (k2, v) :: rest else (k2, w) :: alist_insert k v rest

/-- Association-list removal, modelling `g_hash_table_remove`. -/
def alist_remove {α : Type} (k : CStr) : List (CStr × α) → List (CStr × α)
  | [] => []
  | (k2, w) :: rest =>
      if k = k2 then alist_remove k rest else (k2, w) :: alist_remove k rest

/-- `g_str_has_prefix (key, "param-")`: the flat-namespace marker that
distinguishes parameters from attributes. -/
def isParamKey (key : CStr) : Bool :=
  "param-".data.isPrefixOf key

/-- The `GKeyFile` list separator.  `mcd_keyfile_escape_variant` uses a fresh
`g_key_file_new` keyfile, so the separator is GLib's default. -/
def listSep : Char := ';'

/-- `g_key_file_parse_string_as_value`: escape one string for storage as a
keyfile value.  The first argument says whether the list separator must be
escaped too (true when the string is one element of a string list); the
second is GLib's `parsing_leading_space` flag (initially true). -/
def escapeChars (escSep : Bool) : Bool → List Char → List Char
  | _, [] => []
  | lead, c :: cs =>
      if c = ' ' then
        (if lead then ['\\', 's'] else [' ']) ++ escapeChars escSep lead cs
      else if c = '\t' then
        (if lead then ['\\', 't'] else ['\t']) ++ escapeChars escSep lead cs
      else if c = '\n' then '\\' :: 'n' :: escapeChars escSep lead cs
      else if c = '\r' then '\\' :: 'r' :: escapeChars escSep lead cs
      else if c = '\\' then '\\' :: '\\' :: escapeChars escSep false cs
      else if escSep = true ∧ c = listSep then
        '\\' :: listSep :: escapeChars escSep true cs
      else c :: escapeChars escSep false cs

/-- `g_key_file_parse_value_as_string` without list splitting: undo the
escaping.  `inList` is true when a `\;` escape is legal (i.e. when the
caller passed a non-null `pieces` list).  Returns `none` on an invalid or
truncated escape sequence, in which case GLib raises
`G_KEY_FILE_ERROR_INVALID_VALUE`. -/
def unescapeChars (inList : Bool) : List Char → Option (List Char)
  | [] => some []
  | c :: cs =>
      if c = '\\' then
        match cs with
        | [] => none
        | e :: rest =>
            if e = 's' then (unescapeChars inList rest).map (' ' :: ·)
            else if e = 'n' then (unescapeChars inList rest).map ('\n' :: ·)
            else if e = 't' then (unescapeChars inList rest).map ('\t' :: ·)
            else if e = 'r' then (unescapeChars inList rest).map ('\r' :: ·)
            else if e = '\\' then (unescapeChars inList rest).map ('\\' :: ·)
            else if inList = true ∧ e = listSep then
              (unescapeChars inList rest).map (listSep :: ·)
            else none
      else (unescapeChars inList cs).map (c :: ·)

/-- The splitting half of `g_key_file_parse_value_as_string` when a `pieces`
list is supplied: cut the raw value at unescaped separators.  A backslash
consumes the following character.  The final piece is kept only when it is
non-empty (GLib's `q0 < q` test); pieces before a separator are always kept,
even empty ones. -/
def splitPieces (acc : List Char) : List Char → List (List Char)
  | [] => if acc = [] then [] else [acc.reverse]
  | c :: cs =>
      if c = '\\' then
        match cs with
        | [] => [(c :: acc).reverse]
        | e :: rest => splitPieces (e :: c :: acc) rest
      else if c = listSep then acc.reverse :: splitPieces [] cs
      else splitPieces (c :: acc) cs

/-- Apply a fallible function to every element, failing if any application
fails. -/
def optionMapAll {α β : Type} (f : α → Option β) : List α → Option (List β)
  | [] => some []
  | a :: as => (f a).bind (fun b => (optionMapAll f as).map (b :: ·))

/-- `g_key_file_get_string_list` on a raw value: split at unescaped
separators, then unescape each piece (one combined pass in GLib; an invalid
escape anywhere fails the whole call). -/
def decodeStringList (v : List Char) : Option (List (List Char)) :=
  optionMapAll (unescapeChars true) (splitPieces [] v)

/-- `g_key_file_set_string_list`: escape each element (separator included)
and append the separator after every element. -/
def encodeStringList (xs : List (List Char)) : List Char :=
  (xs.map (fun x => escapeChars true true x ++ [listSep])).flatten

/-- Decimal digit to character (used by `g_strdup_printf` number formatting). -/
def digitChar : Nat → Char
  | 0 => '0' | 1 => '1' | 2 => '2' | 3 => '3' | 4 => '4'
  | 5 => '5' | 6 => '6' | 7 => '7' | 8 => '8' | 9 => '9'
  | _ => '*'

/-- Decimal text of a natural number (`g_strdup_printf` with an unsigned
conversion). -/
def natDec (n : Nat) : List Char :=
  if _h : n < 10 then [digitChar n]
  else natDec (n / 10) ++ [digitChar (n % 10)]
decreasing_by exact Nat.div_lt_self (by omega) (by omega)

/-- Decimal text of an integer (`g_strdup_printf` with a signed conversion). -/
def intDec (i : Int) : List Char :=
  if i < 0 then '-' :: natDec i.natAbs else natDec i.natAbs

/-- Parse an unsigned decimal numeral: all characters must be digits and at
least one digit must be present. -/
def parseNat (l : List Char) : Option Nat :=
  if l ≠ [] ∧ l.all (fun c => c.isDigit) then
    some (l.foldl (fun a c => 10 * a + (c.toNat - 48)) 0)
  else none

/-- `g_ascii_strtoull` on a complete token (digits only; the value saturates
at the unsigned 64-bit maximum on overflow).  The sign-wrapping `strtoull`
applies to a leading minus sign is not modelled: no caller in this
subsystem stores such text. -/
def parseU64 (l : List Char) : Option Nat :=
  (parseNat l).map (fun n => min n (2 ^ 64 - 1))

/-- `strtol`-style signed parse of a complete token: optional sign followed
by digits. -/
def parseInt (l : List Char) : Option Int :=
  match l with
  | [] => none
  | c :: rest =>
      if c = '-' then (parseNat rest).map (fun (n : Nat) => -(n : Int))
      else if c = '+' then (parseNat rest).map (fun (n : Nat) => (n : Int))
      else (parseNat (c :: rest)).map (fun (n : Nat) => (n : Int))

/-- `g_key_file_parse_value_as_integer`: parse, then fail unless the result
fits a signed 32-bit `gint`. -/
def parseI32 (l : List Char) : Option Int :=
  (parseInt l).bind (fun i =>
    if -(2 ^ 31) ≤ i ∧ i < 2 ^ 31 then some i else none)

/-- `g_key_file_get_int64`: `g_ascii_strtoll` on the raw value, which
saturates at the signed 64-bit bounds on overflow. -/
def parseI64 (l : List Char) : Option Int :=
  (parseInt l).map (fun i => max (-(2 ^ 63)) (min i (2 ^ 63 - 1)))

/-- `g_key_file_parse_value_as_boolean`. -/
def parseBool (l : List Char) : Option Bool :=
  if l = "true".data ∨ l = "1".data then some true
  else if l = "false".data ∨ l = "0".data then some false
  else none

/-- `tp_dbus_check_valid_object_path` / `g_variant_is_object_path`: a D-Bus
object path is "/" alone, or "/" followed by non-empty elements of
`[A-Za-z0-9_]` separated by single slashes, with no trailing slash. -/
def objPathChar (c : Char) : Bool :=
  c.isAlphanum || c = '_'

/-- Scan the remainder of an object path after its leading slash and first
element character: element characters continue the element, and a slash must
be followed by at least one element character. -/
def validObjPathGo : List Char → Bool
  | [] => true
  | c :: cs =>
      if c = '/' then
        match cs with
        | [] => false
        | d :: ds => objPathChar d && validObjPathGo ds
      else objPathChar c && validObjPathGo cs

/-- Full object-path validity check. -/
def validObjectPath (l : List Char) : Bool :=
  match l with
  | [] => false
  | c :: cs =>
      if c = '/' then
        match cs with
        | [] => true
        | d :: ds => objPathChar d && validObjPathGo ds
      else false

/-- The closed sum of `GVariant` values handled by the codec
(`mcd_keyfile_set_variant`).  `G_VARIANT_CLASS_DOUBLE` and
`G_VARIANT_CLASS_SIGNATURE` are omitted (see the header comment). -/
inductive MVariant where
  | str (s : CStr)
  | objPath (s : CStr)
  | boolean (b : Bool)
  | byte (n : Nat)
  | int16 (i : Int)
  | uint16 (n : Nat)
  | int32 (i : Int)
  | uint32 (n : Nat)
  | int64 (i : Int)
  | uint64 (n : Nat)
  | strv (xs : List CStr)
  | objv (xs : List CStr)
  | presence (u : Nat) (status msg : CStr)
  deriving DecidableEq, Repr

/-- The target types a caller can request from `mcd_keyfile_get_variant`
(equivalently, the `GType`s dispatched by `mcd_keyfile_get_value`). -/
inductive MVType where
  | string | objectPath | boolean | byte
  | int16 | uint16 | int32 | uint32 | int64 | uint64
  | stringArray | objectPathArray | presence
  deriving DecidableEq, Repr

/-- The concrete type tag of a variant value. -/
def MVariant.typeOf : MVariant → MVType
  | .str _ => .string
  | .objPath _ => .objectPath
  | .boolean _ => .boolean
  | .byte _ => .byte
  | .int16 _ => .int16
  | .uint16 _ => .uint16
  | .int32 _ => .int32
  | .uint32 _ => .uint32
  | .int64 _ => .int64
  | .uint64 _ => .uint64
  | .strv _ => .stringArray
  | .objv _ => .objectPathArray
  | .presence _ _ _ => .presence

/-- `mcd_keyfile_set_variant` followed by `g_key_file_get_value`, i.e.
`mcd_keyfile_escape_variant`: the raw keyfile text of a variant.
Strings and object paths go through `g_key_file_set_string` (escaped, list
separator untouched); booleans become `"true"`/`"false"`; integers are
printed in decimal and stored via `g_key_file_set_string`; string arrays and
object-path arrays go through `g_key_file_set_string_list`; the `(uss)`
presence struct is stored as the 3-element string list whose first element
is the decimal `u`. -/
def mcd_keyfile_escape_variant : MVariant → CStr
  | .str s => escapeChars false true s
  | .objPath s => escapeChars false true s
  | .boolean b => if b then "true".data else "false".data
  | .byte n => escapeChars false true (natDec n)
  | .int16 i => escapeChars false true (intDec i)
  | .uint16 n => escapeChars false true (natDec n)
  | .int32 i => escapeChars false true (intDec i)
  | .uint32 n => escapeChars false true (natDec n)
  | .int64 i => escapeChars false true (intDec i)
  | .uint64 n => escapeChars false true (natDec n)
  | .strv xs => encodeStringList xs
  | .objv xs => encodeStringList xs
  | .presence u s1 s2 => encodeStringList [natDec u, s1, s2]

/-- `mcd_keyfile_get_variant` on a raw keyfile value: decode `v` at the
requested type.  `none` models every error path (the function returns NULL
with the error set).  `int16`/`uint16` requests fall into the source's
`default:` branch, an unknown-type error. -/
def mcd_keyfile_get_variant (t : MVType) (v : CStr) : Option MVariant :=
  match t with
  | .string => (unescapeChars false v).map .str
  | .boolean => (parseBool v).map .boolean
  | .byte => (parseI32 v).bind (fun i =>
      if i < 0 ∨ i > 255 then none else some (.byte i.toNat))
  | .int32 => (parseI32 v).map .int32
  | .uint32 => (parseU64 v).bind (fun n =>
      if n > 2 ^ 32 - 1 then none else some (.uint32 n))
  | .int64 => (parseI64 v).map .int64
  | .uint64 => (parseU64 v).map .uint64
  | .stringArray => (decodeStringList v).map .strv
  | .objectPath => (unescapeChars false v).bind (fun s =>
      if validObjectPath s then some (.objPath s) else none)
  | .objectPathArray => (decodeStringList v).bind (fun xs =>
      if xs.all validObjectPath then some (.objv xs) else none)
  | .presence => (decodeStringList v).bind (fun xs =>
      match xs with
      | [a, b, c] => (parseU64 a).bind (fun u =>
          if u > 2 ^ 32 - 1 then none else some (.presence u b c))
      | _ => none)
  | .int16 => none
  | .uint16 => none

/-! ### Codec lemmas: the escape/unescape round trip -/

theorem unescapeChars_cons_raw (b : Bool) (c : Char) (cs : List Char) (h : ¬ c = '\\') :
    unescapeChars b (c :: cs) = (unescapeChars b cs).map (c :: ·) := by
  rw [unescapeChars.eq_def]; simp [h]

theorem unescapeChars_pair (b : Bool) (e : Char) (rest : List Char) :
    unescapeChars b ('\\' :: e :: rest) =
      (if e = 's' then (unescapeChars b rest).map (' ' :: ·)
       else if e = 'n' then (unescapeChars b rest).map ('\n' :: ·)
       else if e = 't' then (unescapeChars b rest).map ('\t' :: ·)
       else if e = 'r' then (unescapeChars b rest).map ('\r' :: ·)
       else if e = '\\' then (unescapeChars b rest).map ('\\' :: ·)
       else if b = true ∧ e = listSep then
         (unescapeChars b rest).map (listSep :: ·)
       else none) := by
  rw [unescapeChars.eq_def]; simp

theorem unescape_escape (b : Bool) (s : List Char) : ∀ (f : Bool),
    unescapeChars b (escapeChars b f s) = some s := by
  induction s with
  | nil => intro f; simp [escapeChars, unescapeChars]
  | cons c cs ih =>
    intro f
    by_cases h1 : c = ' '
    · subst h1
      cases f <;>
        simp [escapeChars, unescapeChars_pair, unescapeChars_cons_raw, ih]
    · by_cases h2 : c = '\t'
      · subst h2
        cases f <;>
          simp [escapeChars, unescapeChars_pair, unescapeChars_cons_raw, ih]
      · by_cases h3 : c = '\n'
        · subst h3; simp [escapeChars, unescapeChars_pair, ih]
        · by_cases h4 : c = '\r'
          · subst h4; simp [escapeChars, unescapeChars_pair, ih]
          · by_cases h5 : c = '\\'
            · subst h5; simp [escapeChars, unescapeChars_pair, ih]
            · by_cases h6 : b = true ∧ c = listSep
              · obtain ⟨hb, hc⟩ := h6; subst hb; subst hc
                simp [escapeChars, unescapeChars_pair, listSep, ih]
              · rw [escapeChars]
                rw [if_neg h1, if_neg h2, if_neg h3, if_neg h4, if_neg h5, if_neg h6]
                rw [unescapeChars_cons_raw _ _ _ h5]
                simp [ih]

theorem splitPieces_cons_raw (acc : List Char) (c : Char) (cs : List Char)
    (h1 : ¬ c = '\\') (h2 : ¬ c = listSep) :
    splitPieces acc (c :: cs) = splitPieces (c :: acc) cs := by
  rw [splitPieces.eq_def]; simp [h1, h2]

theorem splitPieces_cons_sep (acc : List Char) (cs : List Char) :
    splitPieces acc (listSep :: cs) = acc.reverse :: splitPieces [] cs := by
  rw [splitPieces.eq_def]; simp [listSep]

theorem splitPieces_pair (acc : List Char) (e : Char) (rest : List Char) :
    splitPieces acc ('\\' :: e :: rest) = splitPieces (e :: '\\' :: acc) rest := by
  rw [splitPieces.eq_def]; simp

/-- Splitting undoes the elementwise escape-and-join of `encodeStringList`:
one escaped element followed by a separator yields exactly that element as
the next piece. -/
theorem splitPieces_escaped_elem (x : List Char) : ∀ (f : Bool) (acc rest : List Char),
    splitPieces acc (escapeChars true f x ++ listSep :: rest) =
      (acc.reverse ++ escapeChars true f x) :: splitPieces [] rest := by
  induction x with
  | nil => intro f acc rest; simp [escapeChars, splitPieces_cons_sep]
  | cons c cs ih =>
    intro f acc rest
    have hraw : ∀ (d : Char) (acc2 : List Char) (tl : List Char),
        ¬ d = '\\' → ¬ d = listSep →
        splitPieces acc2 (d :: tl) = splitPieces (d :: acc2) tl :=
      fun d acc2 tl hd1 hd2 => splitPieces_cons_raw acc2 d tl hd1 hd2
    by_cases h1 : c = ' '
    · subst h1
      cases f with
      | true => simp [escapeChars, splitPieces_pair, ih]
      | false =>
          have he : escapeChars true false (' ' :: cs) =
              ' ' :: escapeChars true false cs := by
            simp [escapeChars]
          rw [he, List.cons_append,
            hraw ' ' acc _ (by decide) (by simp [listSep]), ih]
          simp
    · by_cases h2 : c = '\t'
      · subst h2
        cases f with
        | true => simp [escapeChars, splitPieces_pair, ih]
        | false =>
            have he : escapeChars true false ('\t' :: cs) =
                '\t' :: escapeChars true false cs := by
              simp [escapeChars]
            rw [he, List.cons_append,
              hraw '\t' acc _ (by decide) (by simp [listSep]), ih]
            simp
      · by_cases h3 : c = '\n'
        · subst h3; simp [escapeChars, splitPieces_pair, ih]
        · by_cases h4 : c = '\r'
          · subst h4; simp [escapeChars, splitPieces_pair, ih]
          · by_cases h5 : c = '\\'
            · subst h5; simp [escapeChars, splitPieces_pair, ih]
            · by_cases h6 : c = listSep
              · subst h6
                rw [escapeChars]
                rw [if_neg h1, if_neg h2, if_neg h3, if_neg h4, if_neg h5,
                  if_pos ⟨rfl, rfl⟩]
                rw [List.cons_append, List.cons_append, splitPieces_pair, ih]
                simp
              · rw [escapeChars]
                rw [if_neg h1, if_neg h2, if_neg h3, if_neg h4, if_neg h5,
                  if_neg (by simp [h6])]
                rw [List.cons_append, hraw c acc _ h5 h6, ih]
                simp

/-- `g_key_file_get_string_list` undoes `g_key_file_set_string_list`. -/
theorem decodeStringList_encode (xs : List (List Char)) :
    decodeStringList (encodeStringList xs) = some xs := by
  induction xs with
  | nil => simp [decodeStringList, encodeStringList, splitPieces, optionMapAll]
  | cons x rest ih =>
    have hsplit :
        splitPieces [] (encodeStringList (x :: rest)) =
          escapeChars true true x :: splitPieces [] (encodeStringList rest) := by
      have henc : encodeStringList (x :: rest) =
          escapeChars true true x ++ listSep :: encodeStringList rest := by
        simp [encodeStringList]
      rw [henc, splitPieces_escaped_elem]
      simp
    simp only [decodeStringList] at ih ⊢
    rw [hsplit]
    simp [optionMapAll, unescape_escape, ih]

/-! ### Codec lemmas: decimal numerals -/

theorem digitChar_isDigit (d : Nat) (h : d < 10) : (digitChar d).isDigit = true := by
  interval_cases d <;> decide

theorem digitChar_val (d : Nat) (h : d < 10) : (digitChar d).toNat - 48 = d := by
  interval_cases d <;> decide

theorem natDec_digits (n : Nat) : ∀ c ∈ natDec n, c.isDigit = true := by
  induction n using Nat.strong_induction_on with
  | _ n ih =>
    rw [natDec]
    by_cases h : n < 10
    · rw [dif_pos h]
      intro c hc
      simp at hc
      subst hc
      exact digitChar_isDigit n h
    · rw [dif_neg h]
      intro c hc
      rcases List.mem_append.mp hc with hc1 | hc2
      · exact ih (n / 10) (Nat.div_lt_self (by omega) (by omega)) c hc1
      · simp at hc2
        subst hc2
        exact digitChar_isDigit _ (Nat.mod_lt n (by omega))

theorem natDec_ne_nil (n : Nat) : natDec n ≠ [] := by
  rw [natDec]
  by_cases h : n < 10 <;> simp [h]

theorem foldl_natDec (n : Nat) :
    (natDec n).foldl (fun a c => 10 * a + (c.toNat - 48)) 0 = n := by
  induction n using Nat.strong_induction_on with
  | _ n ih =>
    rw [natDec]
    by_cases h : n < 10
    · rw [dif_pos h]
      simp [digitChar_val n h]
    · rw [dif_neg h]
      rw [List.foldl_append]
      rw [ih (n / 10) (Nat.div_lt_self (by omega) (by omega))]
      simp only [List.foldl_cons, List.foldl_nil]
      rw [digitChar_val _ (Nat.mod_lt n (by omega))]
      omega

theorem parseNat_natDec (n : Nat) : parseNat (natDec n) = some n := by
  rw [parseNat, if_pos]
  · rw [foldl_natDec]
  · refine ⟨natDec_ne_nil n, ?_⟩
    exact List.all_eq_true.mpr (natDec_digits n)

theorem parseInt_intDec (i : Int) : parseInt (intDec i) = some i := by
  by_cases h : i < 0
  · rw [intDec, if_pos h, parseInt]
    rw [if_pos rfl, parseNat_natDec]
    have habs : -((i.natAbs : Nat) : Int) = i := by omega
    rw [Option.map_some', habs]
  · rw [intDec, if_neg h]
    rcases hnd : natDec i.natAbs with _ | ⟨c, cs⟩
    · exact absurd hnd (natDec_ne_nil _)
    · have hcd : c.isDigit = true := natDec_digits i.natAbs c (by rw [hnd]; simp)
      have hc1 : ¬ c = '-' := fun he => by subst he; exact absurd hcd (by decide)
      have hc2 : ¬ c = '+' := fun he => by subst he; exact absurd hcd (by decide)
      rw [parseInt, if_neg hc1, if_neg hc2, ← hnd, parseNat_natDec]
      have habs : ((i.natAbs : Nat) : Int) = i := by omega
      rw [Option.map_some', habs]

/-! ### Codec lemmas: characters needing no escaping -/

/-- A character the keyfile escaper copies verbatim in any state. -/
def plainChar (c : Char) : Prop :=
  c ≠ ' ' ∧ c ≠ '\t' ∧ c ≠ '\n' ∧ c ≠ '\r' ∧ c ≠ '\\' ∧ c ≠ listSep

theorem escapeChars_plain (l : List Char) (h : ∀ c ∈ l, plainChar c) :
    ∀ (b f : Bool), escapeChars b f l = l := by
  induction l with
  | nil => intro b f; rw [escapeChars]
  | cons c cs ih =>
    intro b f
    obtain ⟨p1, p2, p3, p4, p5, p6⟩ := h c (by simp)
    rw [escapeChars, if_neg p1, if_neg p2, if_neg p3, if_neg p4, if_neg p5,
      if_neg (by simp [p6])]
    rw [ih (fun c hc => h c (by simp [hc])) b false]

theorem isDigit_plain (c : Char) (h : c.isDigit = true) : plainChar c := by
  refine ⟨?_, ?_, ?_, ?_, ?_, ?_⟩ <;>
    · intro he
      subst he
      exact absurd h (by decide)

theorem escape_natDec (b f : Bool) (n : Nat) :
    escapeChars b f (natDec n) = natDec n :=
  escapeChars_plain _ (fun c hc => isDigit_plain c (natDec_digits n c hc)) b f

theorem minus_plain : plainChar '-' :=
  ⟨by decide, by decide, by decide, by decide, by decide, by decide⟩

theorem escape_intDec (b f : Bool) (i : Int) :
    escapeChars b f (intDec i) = intDec i := by
  by_cases h : i < 0
  · rw [intDec, if_pos h]
    refine escapeChars_plain _ ?_ b f
    intro c hc
    rcases List.mem_cons.mp hc with hc1 | hc2
    · subst hc1; exact minus_plain
    · exact isDigit_plain c (natDec_digits _ c hc2)
  · rw [intDec, if_neg h, escape_natDec]

theorem parseInt_natDec (n : Nat) : parseInt (natDec n) = some (n : Int) := by
  have h := parseInt_intDec (n : Int)
  rw [intDec, if_neg (by omega)] at h
  simpa using h

/-- The typed values covered by the spec's escape/decode round-trip property:
booleans, the signed and unsigned integer widths of the schema within their
ranges, strings, string arrays and the presence struct. -/
def roundtripKind : MVariant → Prop
  | .str _ => True
  | .boolean _ => True
  | .strv _ => True
  | .byte n => n < 256
  | .int32 i => -(2 ^ 31) ≤ i ∧ i < 2 ^ 31
  | .uint32 n => n < 2 ^ 32
  | .int64 i => -(2 ^ 63) ≤ i ∧ i < 2 ^ 63
  | .uint64 n => n < 2 ^ 64
  | .presence u _ _ => u < 2 ^ 32
  | _ => False

/-- C2: for every valid typed value of a schema type listed in the spec's
testable property (booleans, signed and unsigned integers across their full
range, strings — including ones containing the list-separator character —
string arrays, and the `(uss)` presence tuple), escaping the value to its
keyfile string form and decoding that string at the same target type yields
the original value. -/
theorem C2_escape_decode_roundtrip (v : MVariant) (h : roundtripKind v) :
    mcd_keyfile_get_variant v.typeOf (mcd_keyfile_escape_variant v) = some v := by
  cases v with
  | str s =>
      simp only [MVariant.typeOf, mcd_keyfile_escape_variant, mcd_keyfile_get_variant]
      rw [unescape_escape]
      rfl
  | boolean b => cases b <;> decide
  | byte n =>
      have hn : n < 256 := h
      simp only [MVariant.typeOf, mcd_keyfile_escape_variant, mcd_keyfile_get_variant]
      rw [escape_natDec, parseI32, parseInt_natDec, Option.some_bind,
        if_pos (show -(2 ^ 31 : Int) ≤ (n : Int) ∧ (n : Int) < 2 ^ 31 by
          exact ⟨by omega, by omega⟩),
        Option.some_bind,
        if_neg (show ¬ ((n : Int) < 0 ∨ (n : Int) > 255) by omega)]
      rw [show ((n : Int)).toNat = n by omega]
  | int32 i =>
      obtain ⟨hl, hr⟩ := h
      simp only [MVariant.typeOf, mcd_keyfile_escape_variant, mcd_keyfile_get_variant]
      rw [escape_intDec, parseI32, parseInt_intDec, Option.some_bind,
        if_pos (show -(2 ^ 31 : Int) ≤ i ∧ i < 2 ^ 31 by exact ⟨hl, hr⟩)]
      rfl
  | uint32 n =>
      have hn : n < 2 ^ 32 := h
      simp only [MVariant.typeOf, mcd_keyfile_escape_variant, mcd_keyfile_get_variant]
      rw [escape_natDec, parseU64, parseNat_natDec, Option.map_some',
        show min n (2 ^ 64 - 1) = n by omega, Option.some_bind,
        if_neg (show ¬ n > 2 ^ 32 - 1 by omega)]
  | int64 i =>
      obtain ⟨hl, hr⟩ := h
      simp only [MVariant.typeOf, mcd_keyfile_escape_variant, mcd_keyfile_get_variant]
      rw [escape_intDec, parseI64, parseInt_intDec, Option.map_some',
        show max (-(2 ^ 63)) (min i (2 ^ 63 - 1)) = i by omega]
      rfl
  | uint64 n =>
      have hn : n < 2 ^ 64 := h
      simp only [MVariant.typeOf, mcd_keyfile_escape_variant, mcd_keyfile_get_variant]
      rw [escape_natDec, parseU64, parseNat_natDec, Option.map_some',
        show min n (2 ^ 64 - 1) = n by omega]
      rfl
  | strv xs =>
      simp only [MVariant.typeOf, mcd_keyfile_escape_variant, mcd_keyfile_get_variant]
      rw [decodeStringList_encode]
      rfl
  | presence u s1 s2 =>
      have hu : u < 2 ^ 32 := h
      simp only [MVariant.typeOf, mcd_keyfile_escape_variant, mcd_keyfile_get_variant]
      rw [decodeStringList_encode, Option.some_bind]
      show (parseU64 (natDec u)).bind _ = _
      rw [parseU64, parseNat_natDec,
        Option.map_some', show min u (2 ^ 64 - 1) = u by omega, Option.some_bind,
        if_neg (show ¬ u > 2 ^ 32 - 1 by omega)]
  | objPath s => exact absurd h (by simp [roundtripKind])
  | objv xs => exact absurd h (by simp [roundtripKind])
  | int16 i => exact absurd h (by simp [roundtripKind])
  | uint16 n => exact absurd h (by simp [roundtripKind])

/-- Concrete instances of the C2 round trip: a boolean, the extreme signed
64-bit values, a string containing the list separator, a string array with
embedded separators, and a presence triple. -/
theorem C2_escape_decode_roundtrip_witness :
    mcd_keyfile_get_variant MVType.boolean
        (mcd_keyfile_escape_variant (.boolean false)) = some (.boolean false) ∧
    mcd_keyfile_get_variant MVType.int64
        (mcd_keyfile_escape_variant (.int64 (-(2 ^ 63)))) = some (.int64 (-(2 ^ 63))) ∧
    mcd_keyfile_get_variant MVType.uint64
        (mcd_keyfile_escape_variant (.uint64 (2 ^ 64 - 1))) = some (.uint64 (2 ^ 64 - 1)) ∧
    mcd_keyfile_get_variant MVType.string
        (mcd_keyfile_escape_variant (.str "a;b c".data)) = some (.str "a;b c".data) ∧
    mcd_keyfile_get_variant MVType.stringArray
        (mcd_keyfile_escape_variant (.strv ["x;y".data, "".data, " z".data])) =
      some (.strv ["x;y".data, "".data, " z".data]) ∧
    mcd_keyfile_get_variant MVType.presence
        (mcd_keyfile_escape_variant (.presence 2 "available".data "I am here; really".data)) =
      some (.presence 2 "available".data "I am here; really".data) :=
  ⟨C2_escape_decode_roundtrip (.boolean false) trivial,
   C2_escape_decode_roundtrip (.int64 (-(2 ^ 63))) ⟨by norm_num, by norm_num⟩,
   C2_escape_decode_roundtrip (.uint64 (2 ^ 64 - 1)) (by norm_num [roundtripKind]),
   C2_escape_decode_roundtrip (.str "a;b c".data) trivial,
   C2_escape_decode_roundtrip (.strv ["x;y".data, "".data, " z".data]) trivial,
   C2_escape_decode_roundtrip (.presence 2 "available".data "I am here; really".data)
     (by norm_num [roundtripKind])⟩

/-! ### The account cache (`McdStorage` / `McdStorageAccount`) -/

/-- The error outcomes of the orchestrator's fallible operations.  In C the
functions return FALSE and describe the failure through a `GError`
out-parameter, leaving the caller's output `GValue` untouched;
`preconditionFailed` models a tripped `g_return_val_if_fail` guard, which
returns FALSE without setting the error. -/
inductive StErr where
  | accountDoesNotExist
  | notStored
  | invalidValue
  | preconditionFailed
  deriving DecidableEq, Repr

/-- One cache record (`McdStorageAccount`): attribute map, typed parameter
map, legacy keyfile-escaped parameter map, and the owning storage plugin
(an opaque reference, represented by a number). -/
structure McdStorageAccount where
  attributes : List (CStr × MVariant)
  parameters : List (CStr × MVariant)
  escaped_parameters : List (CStr × CStr)
  storage : Nat
  deriving DecidableEq, Repr

/-- `mcd_storage_account_new`: fresh empty maps owned by `plugin`. -/
def mcd_storage_account_new (plugin : Nat) : McdStorageAccount :=
  ⟨[], [], [], plugin⟩

/-- The orchestrator's cache: account name to record. -/
structure McdStorage where
  accounts : List (CStr × McdStorageAccount)
  deriving DecidableEq, Repr

/-- `lookup_account`. -/
def lookup_account (self : McdStorage) (account : CStr) : Option McdStorageAccount :=
  alist_lookup account self.accounts

/-- Write back a (mutated) record for an existing account. -/
def storage_update_account (self : McdStorage) (account : CStr)
    (sa : McdStorageAccount) : McdStorage :=
  ⟨alist_insert account sa self.accounts⟩

/-- Modelled from the spec: `mcd_nullable_variant_equal` lives in
`mcd-misc.c`, which is not part of these sources.  Per the spec's write
path, equality against the cache is computed as a typed comparison when
both sides are typed; two absent values are equal and an absent value never
equals a present one. -/
def mcd_nullable_variant_equal (a b : Option MVariant) : Bool :=
  decide (a = b)

/-- `tp_strdiff` on nullable strings: true iff the two differ (two NULLs are
equal). -/
def tp_strdiff (a b : Option CStr) : Bool :=
  decide (a ≠ b)

/-- `mcd_keyfile_escape_value`: a `GValue` is converted to a `GVariant`
(`dbus_g_value_build_g_variant`) and escaped; in this model `GValue` and
`GVariant` are both `MVariant`, so this is `mcd_keyfile_escape_variant`. -/
def mcd_keyfile_escape_value (value : MVariant) : CStr :=
  mcd_keyfile_escape_variant value

/-- `mcd_keyfile_unescape_value`: store the escaped text as a raw keyfile
value and decode it at the requested type. -/
def mcd_keyfile_unescape_value (escaped : CStr) (t : MVType) : Except StErr MVariant :=
  match mcd_keyfile_get_variant t escaped with
  | some v => .ok v
  | none => .error .invalidValue

/-- `mcd_storage_coerce_variant_to_value`: if the native type already
matches the requested one, hand the value over; otherwise round-trip
through the escaped form (the single normalization path). -/
def mcd_storage_coerce_variant_to_value (variant : MVariant) (t : MVType) :
    Except StErr MVariant :=
  if variant.typeOf = t then .ok variant
  else mcd_keyfile_unescape_value (mcd_keyfile_escape_variant variant) t

/-- `mcd_storage_get_attribute`. -/
def mcd_storage_get_attribute (self : McdStorage) (account attrName : CStr)
    (t : MVType) : Except StErr MVariant :=
  if isParamKey attrName then .error .preconditionFailed
  else
    match lookup_account self account with
    | none => .error .accountDoesNotExist
    | some sa =>
        match alist_lookup attrName sa.attributes with
        | none => .error .notStored
        | some variant => mcd_storage_coerce_variant_to_value variant t

/-- `mcd_storage_get_parameter`: typed map first, then the escaped map,
otherwise not stored. -/
def mcd_storage_get_parameter (self : McdStorage) (account parameter : CStr)
    (t : MVType) : Except StErr MVariant :=
  match lookup_account self account with
  | none => .error .accountDoesNotExist
  | some sa =>
      match alist_lookup parameter sa.parameters with
      | some variant => mcd_storage_coerce_variant_to_value variant t
      | none =>
          match alist_lookup parameter sa.escaped_parameters with
          | none => .error .notStored
          | some escaped => mcd_keyfile_unescape_value escaped t

/-! ### Dispatch to the owning plugin (`update_storage`) -/

/-- The per-call capability surface of a storage plugin that
`update_storage` probes: the optional typed setters (returning FALSE means
"unimplemented, use the untyped path") and the always-available untyped
`set`. -/
structure PluginCaps where
  set_attribute : CStr → CStr → MVariant → Bool
  set_parameter : CStr → CStr → MVariant → Bool
  set : CStr → CStr → CStr → Bool

/-- What `update_storage` ends up invoking on the owning plugin. -/
inductive DispatchResult where
  | deleteCall
  | typedAttributeCall
  | typedParameterCall
  | untypedSetCall (stored : Bool)
  deriving DecidableEq, Repr

/-- The arguments a cache write hands to `update_storage`. -/
structure DispatchArgs where
  account : CStr
  key : CStr
  variant : Option MVariant
  escaped : Option CStr
  deriving DecidableEq, Repr

/-- `update_storage`: delete when the escaped form is NULL, else try the
typed setter matching the key namespace, else fall back to the untyped
`set`.  `env` maps the plugin reference held by the record to its
capability functions; `none` models the `g_return_if_fail` on a missing
account (no call is made). -/
def update_storage (env : Nat → PluginCaps) (self : McdStorage)
    (args : DispatchArgs) : Option DispatchResult :=
  match lookup_account self args.account with
  | none => none
  | some sa =>
      let caps := env sa.storage
      some (match args.escaped, args.variant with
        | none, _ => .deleteCall
        | some e, some v =>
            if isParamKey args.key = false then
              if caps.set_attribute args.account args.key v then .typedAttributeCall
              else .untypedSetCall (caps.set args.account args.key e)
            else
              if caps.set_parameter args.account (args.key.drop 6) v then
                .typedParameterCall
              else .untypedSetCall (caps.set args.account args.key e)
        | some e, none => .untypedSetCall (caps.set args.account args.key e))

/-! ### The orchestrator's write path -/

/-- Result of `mcd_storage_set_attribute` / `mcd_storage_set_parameter`:
the returned changed/unchanged flag, the cache afterwards, and the
arguments passed to `update_storage` (present exactly when the cache
changed; the dispatch itself only talks to the plugin and cannot affect
either the flag or the cache). -/
structure McdWriteResult where
  updated : Bool
  state : McdStorage
  dispatched : Option DispatchArgs
  deriving DecidableEq, Repr

/-- `mcd_storage_set_attribute`. -/
def mcd_storage_set_attribute (self : McdStorage) (account attrName : CStr)
    (value : Option MVariant) : McdWriteResult :=
  if isParamKey attrName then ⟨false, self, none⟩
  else
    match lookup_account self account with
    | none => ⟨false, self, none⟩
    | some sa =>
        let new_v := value
        let old_v := alist_lookup attrName sa.attributes
        if mcd_nullable_variant_equal old_v new_v then ⟨false, self, none⟩
        else
          let attrs :=
            match new_v with
            | none => alist_remove attrName sa.attributes
            | some v => alist_insert attrName v sa.attributes
          let escaped := value.map mcd_keyfile_escape_value
          ⟨true, storage_update_account self account { sa with attributes := attrs },
           some ⟨account, attrName, new_v, escaped⟩⟩

/-- The key `mcd_storage_set_parameter` dispatches under:
`g_snprintf (key, MAX_KEY_LENGTH, "param-%s", parameter)` with
`MAX_KEY_LENGTH` = 255 + 6, i.e. the prefixed name truncated to 260
characters. -/
def paramKeyOf (parameter : CStr) : CStr :=
  ("param-".data ++ parameter).take 260

/-- The changed/unchanged test of `mcd_storage_set_parameter`: typed against
typed when a typed value is cached, else escaped against escaped when an
escaped value is cached, else changed iff a value is being stored. -/
def set_parameter_updated (sa : McdStorageAccount) (parameter : CStr)
    (value : Option MVariant) : Bool :=
  match alist_lookup parameter sa.parameters with
  | some old_v => ! mcd_nullable_variant_equal (some old_v) value
  | none =>
      match alist_lookup parameter sa.escaped_parameters with
      | some old_escaped =>
          tp_strdiff (some old_escaped) (value.map mcd_keyfile_escape_value)
      | none => value.isSome

/-- `mcd_storage_set_parameter`. -/
def mcd_storage_set_parameter (self : McdStorage) (account parameter : CStr)
    (value : Option MVariant) : McdWriteResult :=
  match lookup_account self account with
  | none => ⟨false, self, none⟩
  | some sa =>
      let new_escaped := value.map mcd_keyfile_escape_value
      let new_v := value
      if set_parameter_updated sa parameter value then
        let params0 := alist_remove parameter sa.parameters
        let eparams := alist_remove parameter sa.escaped_parameters
        let params :=
          match new_v with
          | some v => alist_insert parameter v params0
          | none => params0
        ⟨true,
         storage_update_account self account
           { sa with parameters := params, escaped_parameters := eparams },
         some ⟨account, paramKeyOf parameter, new_v, new_escaped⟩⟩
      else ⟨false, self, none⟩

/-! ### The attribute schema and the plugin-facing write-back interface -/

/-- The `known_attributes` table: rows of (wire type, attribute name), in the
source's order.  Modelled from the spec: the `MC_ACCOUNTS_KEY_*` macros live
in `mcd-account-config.h`, which is not part of these sources; the names
used here are the documented attribute names behind those macros.  No claim
depends on the concrete spellings, only on the (name, type) association. -/
def known_attributes : List (CStr × CStr) := [
  ("(uss)".data, "AutomaticPresence".data),
  ("ao".data, "Supersedes".data),
  ("as".data, "uri-schemes".data),
  ("b".data, "always_dispatch".data),
  ("b".data, "ConnectAutomatically".data),
  ("b".data, "Enabled".data),
  ("b".data, "HasBeenOnline".data),
  ("s".data, "AutomaticPresenceMessage".data),
  ("s".data, "AutomaticPresenceStatus".data),
  ("s".data, "AvatarMime".data),
  ("s".data, "avatar_token".data),
  ("s".data, "DisplayName".data),
  ("s".data, "Icon".data),
  ("s".data, "manager".data),
  ("s".data, "Nickname".data),
  ("s".data, "NormalizedName".data),
  ("s".data, "protocol".data),
  ("s".data, "Service".data),
  ("u".data, "AutomaticPresenceType".data)]

/-- `mcd_storage_get_attribute_type`: first row whose name matches. -/
def mcd_storage_get_attribute_type (attrName : CStr) : Option CStr :=
  (known_attributes.find? (fun row => decide (row.2 = attrName))).map (fun row => row.1)

/-- `mcd_storage_init_value_for_attribute`: the `GType` a schema signature
initializes, keyed on the signature's first character.  The `"u"` signature
deliberately initializes a signed `G_TYPE_INT` (the source comments "this
seems wrong but it's how we've always done it"). -/
def mcd_storage_init_value_for_attribute (attrName : CStr) : Option MVType :=
  match mcd_storage_get_attribute_type attrName with
  | none => none
  | some s =>
      match s with
      | [] => none
      | c :: rest =>
          if c = 's' then some .string
          else if c = 'b' then some .boolean
          else if c = 'u' then some .int32
          else if c = 'a' then
            match rest with
            | 'o' :: _ => some .objectPathArray
            | 's' :: _ => some .stringArray
            | _ => none
          else if c = '(' then
            if s = "(uss)".data then some .presence else none
          else none

/-- `mcpa_set_attribute` (plugin write-back during load): store or remove a
typed attribute; a missing account trips `g_return_if_fail` (no change). -/
def mcpa_set_attribute (self : McdStorage) (account attrName : CStr)
    (value : Option MVariant) : McdStorage :=
  match lookup_account self account with
  | none => self
  | some sa =>
      match value with
      | some v =>
          storage_update_account self account
            { sa with attributes := alist_insert attrName v sa.attributes }
      | none =>
          storage_update_account self account
            { sa with attributes := alist_remove attrName sa.attributes }

/-- `mcpa_set_parameter` (plugin write-back): drop the key from both
parameter maps, then store the typed value if non-null. -/
def mcpa_set_parameter (self : McdStorage) (account parameter : CStr)
    (value : Option MVariant) : McdStorage :=
  match lookup_account self account with
  | none => self
  | some sa =>
      let params0 := alist_remove parameter sa.parameters
      let eparams := alist_remove parameter sa.escaped_parameters
      let params :=
        match value with
        | some v => alist_insert parameter v params0
        | none => params0
      storage_update_account self account
        { sa with parameters := params, escaped_parameters := eparams }

/-- `set_value` (plugin write-back, escaped-string path): for a `param-`
key, drop the key from both maps and store the escaped text if non-null;
for an attribute, decode at the schema type (assuming string for unknown
names) and store the result, removing the key if decoding fails or the
value is null. -/
def set_value (self : McdStorage) (account key : CStr)
    (value : Option CStr) : McdStorage :=
  match lookup_account self account with
  | none => self
  | some sa =>
      if isParamKey key then
        let p := key.drop 6
        let params := alist_remove p sa.parameters
        let eparams0 := alist_remove p sa.escaped_parameters
        let eparams :=
          match value with
          | some v => alist_insert p v eparams0
          | none => eparams0
        storage_update_account self account
          { sa with parameters := params, escaped_parameters := eparams }
      else
        match value with
        | none =>
            storage_update_account self account
              { sa with attributes := alist_remove key sa.attributes }
        | some v =>
            let t :=
              match mcd_storage_init_value_for_attribute key with
              | some t => t
              | none => .string
            match mcd_keyfile_get_variant t v with
            | some variant =>
                storage_update_account self account
                  { sa with attributes := alist_insert key variant sa.attributes }
            | none =>
                storage_update_account self account
                  { sa with attributes := alist_remove key sa.attributes }

/-! ### Account absorption, load, enumeration, deletion -/

/-- The hard invariant of §7: two backends claiming one account name. -/
inductive InvariantViolation where
  | duplicateAccountName
  deriving DecidableEq, Repr

/-- One write-back call a plugin makes into the manager while answering
`mcp_account_storage_get`. -/
inductive WriteBack where
  | attr (account attrName : CStr) (value : Option MVariant)
  | param (account parameter : CStr) (value : Option MVariant)
  | val (account key : CStr) (value : Option CStr)
  deriving DecidableEq, Repr

/-- Execute one plugin write-back against the cache. -/
def applyWriteBack (self : McdStorage) : WriteBack → McdStorage
  | .attr a k v => mcpa_set_attribute self a k v
  | .param a k v => mcpa_set_parameter self a k v
  | .val a k v => set_value self a k v

/-- `mcd_storage_add_account_from_plugin`: refuse (fatal invariant
violation, per spec §7) if the account name is already cached — the
`g_return_if_fail` fires before any record is created or the plugin's
`get` is invoked; otherwise create a record bound to `plugin` and let the
plugin fill it (`ops` are its write-back calls). -/
def mcd_storage_add_account_from_plugin (self : McdStorage) (plugin : Nat)
    (account : CStr) (ops : List WriteBack) :
    Except InvariantViolation McdStorage :=
  if (lookup_account self account).isSome then .error .duplicateAccountName
  else
    .ok (ops.foldl applyWriteBack
      ⟨alist_insert account (mcd_storage_account_new plugin) self.accounts⟩)

/-- Absorb the accounts one plugin reports, in order. -/
def load_plugin_accounts (plugin : Nat) :
    McdStorage → List (CStr × List WriteBack) →
    Except InvariantViolation McdStorage
  | self, [] => .ok self
  | self, (name, ops) :: rest =>
      match mcd_storage_add_account_from_plugin self plugin name ops with
      | .error e => .error e
      | .ok s2 => load_plugin_accounts plugin s2 rest

/-- `mcd_storage_load`: visit the plugin reports in the order the C loop
walks them (from the tail of the sorted registry, i.e. lowest priority
first) and absorb every listed account. -/
def mcd_storage_load :
    McdStorage → List (Nat × List (CStr × List WriteBack)) →
    Except InvariantViolation McdStorage
  | self, [] => .ok self
  | self, (p, accts) :: rest =>
      match load_plugin_accounts p self accts with
      | .error e => .error e
      | .ok s2 => mcd_storage_load s2 rest

/-- `mcd_storage_dup_accounts`: the names of the cached accounts whose
attribute table is non-empty (`g_hash_table_size (sa->attributes) > 0`). -/
def mcd_storage_dup_accounts (self : McdStorage) : List CStr :=
  (self.accounts.filter (fun kv => kv.2.attributes.length > 0)).map (fun kv => kv.1)

/-- `mcd_storage_delete_account`: ask the owning plugin to delete (external
effect), then drop the record from the cache immediately. -/
def mcd_storage_delete_account (self : McdStorage) (account : CStr) : McdStorage :=
  match lookup_account self account with
  | none => self
  | some _ => ⟨alist_remove account self.accounts⟩

/-! ### The plugin registry and account creation -/

/-- A registered storage plugin as the registry and `create_account` see
it: identity, declared priority, optional provider id, and the outcome of
its `create` operation (`none` = signals inability). -/
structure StoragePlugin where
  pid : Nat
  priority : Int
  provider : Option CStr
  createResult : Option CStr
  deriving DecidableEq, Repr

/-- `account_storage_cmp`: sort in descending order of priority. -/
def account_storage_cmp (a b : StoragePlugin) : Int :=
  if a.priority > b.priority then -1
  else if a.priority < b.priority then 1
  else 0

/-- GLib's `g_list_insert_sorted`: walk while the new element compares
greater than the current one, and insert before the first element it does
not compare greater than. -/
def g_list_insert_sorted (x : StoragePlugin) :
    List StoragePlugin → List StoragePlugin
  | [] => [x]
  | y :: ys =>
      if account_storage_cmp x y > 0 then y :: g_list_insert_sorted x ys
      else x :: y :: ys

/-- `add_storage_plugin`. -/
def add_storage_plugin (stores : List StoragePlugin) (plugin : StoragePlugin) :
    List StoragePlugin :=
  g_list_insert_sorted plugin stores

/-- The registry that `sort_and_cache_plugins` builds from the plugins in
registration order (the built-in default backend first, then each plugin
the loader lists). -/
def build_registry (regs : List StoragePlugin) : List StoragePlugin :=
  regs.foldl add_storage_plugin []

/-- The provider-less arm of `mcd_storage_create_account`: walk the sorted
registry, return the first successful `create` (clearing the error a
failed attempt left behind), or nothing if every plugin signals inability. -/
def create_account_no_provider :
    List StoragePlugin → Option (CStr × StoragePlugin)
  | [] => none
  | p :: rest =>
      match p.createResult with
      | some name => some (name, p)
      | none => create_account_no_provider rest

/-- `mcd_storage_create_account`: with a provider, use exactly the plugin
whose provider id matches (failing if none does, or if that plugin's create
fails); without one, try plugins in registry order. -/
def mcd_storage_create_account (stores : List StoragePlugin)
    (provider : Option CStr) : Except StErr (CStr × StoragePlugin) :=
  match provider with
  | some prov =>
      match stores.find? (fun p => decide (p.provider = some prov)) with
      | some p =>
          match p.createResult with
          | some name => .ok (name, p)
          | none => .error .invalidValue
      | none => .error .invalidValue
  | none =>
      match create_account_no_provider stores with
      | some r => .ok r
      | none => .error .invalidValue

/-! ### Identifier normalization (`identify_account`) -/

/-- The error classes `identify_account_cb` distinguishes:
`TP_ERROR_NOT_IMPLEMENTED`, `DBUS_GERROR_SERVICE_UNKNOWN`, and everything
else. -/
inductive IdentifyError where
  | notImplemented
  | serviceUnknown
  | other (code : Nat)
  deriving DecidableEq, Repr

/-- The fallback identifier computed up front by `identify_account_async`:
the string value of the `"account"` parameter if present (a `g_variant_lookup`
with format `"&s"`, so a non-string value does not match), else the literal
string `"account"`. -/
def identifyBase (parameters : List (CStr × MVariant)) : CStr :=
  match alist_lookup "account".data parameters with
  | some (.str s) => s
  | _ => "account".data

/-- `identify_account_cb`: success passes the normalized identification
through; not-implemented and service-unknown degrade to the fallback; any
other error is propagated. -/
def identify_account_cb (base : CStr) (response : Except IdentifyError CStr) :
    Except IdentifyError CStr :=
  match response with
  | .ok identification => .ok identification
  | .error .notImplemented => .ok base
  | .error .serviceUnknown => .ok base
  | .error e => .error e

/-- `identify_account_async` as a function of its two external outcomes:
whether `tp_protocol_new` succeeded, and the remote `IdentifyAccount`
response handed to the callback. -/
def identify_account_async (parameters : List (CStr × MVariant))
    (protocolNew : Except IdentifyError Unit)
    (response : Except IdentifyError CStr) : Except IdentifyError CStr :=
  match protocolNew with
  | .error e => .error e
  | .ok _ => identify_account_cb (identifyBase parameters) response

/-! ### Association-list lemmas -/

theorem alist_lookup_insert_self {α : Type} (k : CStr) (v : α)
    (m : List (CStr × α)) : alist_lookup k (alist_insert k v m) = some v := by
  induction m with
  | nil => simp [alist_insert, alist_lookup]
  | cons kv rest ih =>
      obtain ⟨k2, w⟩ := kv
      by_cases h : k = k2
      · subst h; simp [alist_insert, alist_lookup]
      · simp [alist_insert, alist_lookup, h, ih]

theorem alist_lookup_insert_other {α : Type} (k k2 : CStr) (v : α)
    (m : List (CStr × α)) (h : k ≠ k2) :
    alist_lookup k (alist_insert k2 v m) = alist_lookup k m := by
  induction m with
  | nil => simp [alist_insert, alist_lookup, h]
  | cons kv rest ih =>
      obtain ⟨k3, w⟩ := kv
      by_cases h2 : k2 = k3
      · subst h2; simp [alist_insert, alist_lookup, h, ih]
      · by_cases h3 : k = k3
        · subst h3; simp [alist_insert, alist_lookup, h2, Ne.symm h2]
        · simp [alist_insert, alist_lookup, h2, h3, ih]

theorem alist_lookup_remove_self {α : Type} (k : CStr) (m : List (CStr × α)) :
    alist_lookup k (alist_remove k m) = none := by
  induction m with
  | nil => simp [alist_remove, alist_lookup]
  | cons kv rest ih =>
      obtain ⟨k2, w⟩ := kv
      by_cases h : k = k2
      · subst h; simp [alist_remove, ih]
      · simp [alist_remove, alist_lookup, h, ih]

theorem alist_lookup_remove_other {α : Type} (k k2 : CStr)
    (m : List (CStr × α)) (h : k ≠ k2) :
    alist_lookup k (alist_remove k2 m) = alist_lookup k m := by
  induction m with
  | nil => simp [alist_remove, alist_lookup]
  | cons kv rest ih =>
      obtain ⟨k3, w⟩ := kv
      by_cases h2 : k2 = k3
      · subst h2; simp [alist_remove, alist_lookup, h, ih]
      · by_cases h3 : k = k3
        · subst h3; simp [alist_remove, alist_lookup, h2, ih]
        · simp [alist_remove, alist_lookup, h2, h3, ih]

theorem lookup_account_update_self (self : McdStorage) (account : CStr)
    (sa : McdStorageAccount) :
    lookup_account (storage_update_account self account sa) account = some sa := by
  simp [lookup_account, storage_update_account, alist_lookup_insert_self]

theorem lookup_account_update_other (self : McdStorage) (account b : CStr)
    (sa : McdStorageAccount) (h : b ≠ account) :
    lookup_account (storage_update_account self account sa) b =
      lookup_account self b := by
  simp [lookup_account, storage_update_account, alist_lookup_insert_other _ _ _ _ h]

/-! ### C1: idempotence of the write path -/

/-- C1: for a cached account, calling `mcd_storage_set_attribute`
(respectively `mcd_storage_set_parameter`) twice in succession with the
same value returns "changed" on the first call when the supplied value
differs from the cached one (typed-against-typed comparison when both sides
are typed, escaped-string comparison otherwise, as expressed by the
hypotheses), returns "unchanged" on the second call, and the cache is
identical after one call and after two calls. -/
theorem C1_set_idempotent (self : McdStorage) (account key : CStr)
    (value : Option MVariant) (sa : McdStorageAccount)
    (hacct : lookup_account self account = some sa) :
    (isParamKey key = false →
      mcd_nullable_variant_equal (alist_lookup key sa.attributes) value = false →
      (mcd_storage_set_attribute self account key value).updated = true ∧
      (mcd_storage_set_attribute
        (mcd_storage_set_attribute self account key value).state
        account key value).updated = false ∧
      (mcd_storage_set_attribute
        (mcd_storage_set_attribute self account key value).state
        account key value).state =
        (mcd_storage_set_attribute self account key value).state) ∧
    (set_parameter_updated sa key value = true →
      (mcd_storage_set_parameter self account key value).updated = true ∧
      (mcd_storage_set_parameter
        (mcd_storage_set_parameter self account key value).state
        account key value).updated = false ∧
      (mcd_storage_set_parameter
        (mcd_storage_set_parameter self account key value).state
        account key value).state =
        (mcd_storage_set_parameter self account key value).state) := by
  constructor
  · intro hp hne
    have hne2 : ¬ alist_lookup key sa.attributes = value := by
      intro he
      rw [he] at hne
      simp [mcd_nullable_variant_equal] at hne
    cases value with
    | none =>
        refine ⟨?_, ?_, ?_⟩ <;>
          simp [mcd_storage_set_attribute, hp, hacct, hne2,
            lookup_account_update_self, alist_lookup_remove_self,
            mcd_nullable_variant_equal]
    | some v =>
        refine ⟨?_, ?_, ?_⟩ <;>
          simp [mcd_storage_set_attribute, hp, hacct, hne2,
            lookup_account_update_self, alist_lookup_insert_self,
            mcd_nullable_variant_equal]
  · intro hup
    cases value with
    | none =>
        have hup2 : set_parameter_updated
            { sa with parameters := alist_remove key sa.parameters,
                      escaped_parameters := alist_remove key sa.escaped_parameters }
            key none = false := by
          simp [set_parameter_updated, alist_lookup_remove_self]
        refine ⟨?_, ?_, ?_⟩ <;>
          simp [mcd_storage_set_parameter, hacct, hup,
            lookup_account_update_self, hup2]
    | some v =>
        have hup2 : set_parameter_updated
            { sa with parameters := alist_insert key v (alist_remove key sa.parameters),
                      escaped_parameters := alist_remove key sa.escaped_parameters }
            key (some v) = false := by
          simp [set_parameter_updated, alist_lookup_insert_self,
            mcd_nullable_variant_equal]
        refine ⟨?_, ?_, ?_⟩ <;>
          simp [mcd_storage_set_parameter, hacct, hup,
            lookup_account_update_self, hup2]

/-- A two-account cache used to instantiate theorems on concrete data. -/
def demoStorage : McdStorage :=
  ⟨[("a".data, ⟨[], [("p".data, .str "old".data)], [], 0⟩),
    ("b".data, ⟨[("Enabled".data, .boolean true)], [], [("q".data, "x".data)], 1⟩)]⟩

/-- C1 at a concrete input: storing a fresh boolean attribute and a changed
string parameter on account `"a"` reports changed then unchanged, with the
cache stable from the first call on. -/
theorem C1_set_idempotent_witness :
    (mcd_storage_set_attribute demoStorage "a".data "Enabled".data
        (some (.boolean true))).updated = true ∧
    (mcd_storage_set_attribute
        (mcd_storage_set_attribute demoStorage "a".data "Enabled".data
          (some (.boolean true))).state
        "a".data "Enabled".data (some (.boolean true))).updated = false ∧
    (mcd_storage_set_attribute
        (mcd_storage_set_attribute demoStorage "a".data "Enabled".data
          (some (.boolean true))).state
        "a".data "Enabled".data (some (.boolean true))).state =
      (mcd_storage_set_attribute demoStorage "a".data "Enabled".data
        (some (.boolean true))).state ∧
    (mcd_storage_set_parameter demoStorage "a".data "p".data
        (some (.str "new".data))).updated = true ∧
    (mcd_storage_set_parameter
        (mcd_storage_set_parameter demoStorage "a".data "p".data
          (some (.str "new".data))).state
        "a".data "p".data (some (.str "new".data))).updated = false ∧
    (mcd_storage_set_parameter
        (mcd_storage_set_parameter demoStorage "a".data "p".data
          (some (.str "new".data))).state
        "a".data "p".data (some (.str "new".data))).state =
      (mcd_storage_set_parameter demoStorage "a".data "p".data
        (some (.str "new".data))).state := by
  have h1 := (C1_set_idempotent demoStorage "a".data "Enabled".data
    (some (.boolean true)) ⟨[], [("p".data, .str "old".data)], [], 0⟩
    (by decide)).1 (by decide) (by decide)
  have h2 := (C1_set_idempotent demoStorage "a".data "p".data
    (some (.str "new".data)) ⟨[], [("p".data, .str "old".data)], [], 0⟩
    (by decide)).2 (by decide)
  exact ⟨h1.1, h1.2.1, h1.2.2, h2.1, h2.2.1, h2.2.2⟩

/-! ### C3: the read path and its failure modes -/

/-- C3: `mcd_storage_get_parameter` returns the typed cached value for the
key when one exists (coercing when the requested type differs, the identity
when it matches), otherwise decodes the escaped cached string, otherwise
fails with "not stored"; and both `mcd_storage_get_attribute` and
`mcd_storage_get_parameter` fail with the account-does-not-exist error
whenever no record exists for the account (no value is produced, modelling
the untouched output `GValue`). -/
theorem C3_read_path (self : McdStorage) (account key : CStr) (t : MVType) :
    (lookup_account self account = none →
      mcd_storage_get_parameter self account key t = .error .accountDoesNotExist ∧
      (isParamKey key = false →
        mcd_storage_get_attribute self account key t = .error .accountDoesNotExist)) ∧
    (∀ sa, lookup_account self account = some sa →
      (∀ v, alist_lookup key sa.parameters = some v →
        mcd_storage_get_parameter self account key t =
          mcd_storage_coerce_variant_to_value v t ∧
        (v.typeOf = t → mcd_storage_get_parameter self account key t = .ok v)) ∧
      (alist_lookup key sa.parameters = none →
        (∀ e, alist_lookup key sa.escaped_parameters = some e →
          mcd_storage_get_parameter self account key t =
            mcd_keyfile_unescape_value e t) ∧
        (alist_lookup key sa.escaped_parameters = none →
          mcd_storage_get_parameter self account key t = .error .notStored))) := by
  constructor
  · intro hnone
    refine ⟨?_, ?_⟩
    · simp [mcd_storage_get_parameter, hnone]
    · intro hp
      simp [mcd_storage_get_attribute, hp, hnone]
  · intro sa hsa
    constructor
    · intro v hv
      constructor
      · simp [mcd_storage_get_parameter, hsa, hv]
      · intro ht
        simp [mcd_storage_get_parameter, hsa, hv,
          mcd_storage_coerce_variant_to_value, ht]
    · intro hnp
      constructor
      · intro e he
        simp [mcd_storage_get_parameter, hsa, hnp, he]
      · intro hne
        simp [mcd_storage_get_parameter, hsa, hnp, hne]

/-- C3 at concrete inputs: a missing account fails with
account-does-not-exist on both getters, a typed parameter is returned
as-is, an escaped parameter is decoded, and a missing parameter reports
not-stored. -/
theorem C3_read_path_witness :
    mcd_storage_get_parameter demoStorage "zz".data "p".data .string =
      .error .accountDoesNotExist ∧
    mcd_storage_get_attribute demoStorage "zz".data "Enabled".data .boolean =
      .error .accountDoesNotExist ∧
    mcd_storage_get_parameter demoStorage "a".data "p".data .string =
      .ok (.str "old".data) ∧
    mcd_storage_get_parameter demoStorage "b".data "q".data .string =
      mcd_keyfile_unescape_value "x".data .string ∧
    mcd_storage_get_parameter demoStorage "a".data "missing".data .string =
      .error .notStored := by
  refine ⟨?_, ?_, ?_, ?_, ?_⟩
  · exact ((C3_read_path demoStorage "zz".data "p".data .string).1 (by decide)).1
  · exact ((C3_read_path demoStorage "zz".data "Enabled".data .boolean).1
      (by decide)).2 (by decide)
  · exact (((C3_read_path demoStorage "a".data "p".data .string).2
      ⟨[], [("p".data, .str "old".data)], [], 0⟩ (by decide)).1
      (.str "old".data) (by decide)).2 (by decide)
  · exact (((C3_read_path demoStorage "b".data "q".data .string).2
      ⟨[("Enabled".data, .boolean true)], [], [("q".data, "x".data)], 1⟩
      (by decide)).2 (by decide)).1 "x".data (by decide)
  · exact (((C3_read_path demoStorage "a".data "missing".data .string).2
      ⟨[], [("p".data, .str "old".data)], [], 0⟩ (by decide)).2 (by decide)).2
      (by decide)

/-! ### C4: duplicate account names across backends are fatal -/

theorem storage_update_owner (self : McdStorage) (acct : CStr)
    (sa sa' : McdStorageAccount) (hsa : lookup_account self acct = some sa)
    (hst : sa'.storage = sa.storage) (a : CStr) :
    (lookup_account (storage_update_account self acct sa') a).map
        (fun r => r.storage) =
      (lookup_account self a).map (fun r => r.storage) := by
  by_cases h : a = acct
  · subst h
    rw [lookup_account_update_self, hsa]
    simp [hst]
  · rw [lookup_account_update_other _ _ _ _ h]

/-- No plugin write-back call creates, destroys, or re-owns a cache record:
the owning plugin of every account (and hence the set of cached names) is
untouched. -/
theorem applyWriteBack_owner (s : McdStorage) (op : WriteBack) (a : CStr) :
    (lookup_account (applyWriteBack s op) a).map (fun r => r.storage) =
      (lookup_account s a).map (fun r => r.storage) := by
  cases op with
  | attr a2 k v =>
      simp only [applyWriteBack, mcpa_set_attribute]
      cases hl : lookup_account s a2 with
      | none => rfl
      | some sa =>
          cases v with
          | none => exact storage_update_owner s a2 sa _ hl (by rfl) a
          | some vv => exact storage_update_owner s a2 sa _ hl (by rfl) a
  | param a2 k v =>
      simp only [applyWriteBack, mcpa_set_parameter]
      cases hl : lookup_account s a2 with
      | none => rfl
      | some sa =>
          cases v with
          | none => exact storage_update_owner s a2 sa _ hl (by rfl) a
          | some vv => exact storage_update_owner s a2 sa _ hl (by rfl) a
  | val a2 k v =>
      simp only [applyWriteBack, set_value]
      cases hl : lookup_account s a2 with
      | none => rfl
      | some sa =>
          dsimp only
          by_cases hk : isParamKey k = true
          · rw [if_pos hk]
            cases v with
            | none => exact storage_update_owner s a2 sa _ hl (by rfl) a
            | some vv => exact storage_update_owner s a2 sa _ hl (by rfl) a
          · rw [if_neg hk]
            cases v with
            | none => exact storage_update_owner s a2 sa _ hl (by rfl) a
            | some vv =>
                cases hdec : mcd_keyfile_get_variant
                    (match mcd_storage_init_value_for_attribute k with
                     | some t => t
                     | none => .string) vv with
                | none =>
                    simp only [hdec]
                    exact storage_update_owner s a2 sa _ hl (by rfl) a
                | some variant =>
                    simp only [hdec]
                    exact storage_update_owner s a2 sa _ hl (by rfl) a

theorem foldl_applyWriteBack_owner (ops : List WriteBack) (s : McdStorage)
    (a : CStr) :
    (lookup_account (ops.foldl applyWriteBack s) a).map (fun r => r.storage) =
      (lookup_account s a).map (fun r => r.storage) := by
  induction ops generalizing s with
  | nil => rfl
  | cons op rest ih => rw [List.foldl_cons, ih, applyWriteBack_owner]

theorem foldl_applyWriteBack_isSome (ops : List WriteBack) (s : McdStorage)
    (a : CStr) :
    (lookup_account (ops.foldl applyWriteBack s) a).isSome =
      (lookup_account s a).isSome := by
  have h := congrArg Option.isSome (foldl_applyWriteBack_owner ops s a)
  simpa using h

theorem lookup_account_insert_new (self : McdStorage) (account : CStr)
    (plugin : Nat) (a : CStr) :
    lookup_account ⟨alist_insert account (mcd_storage_account_new plugin)
        self.accounts⟩ a =
      if a = account then some (mcd_storage_account_new plugin)
      else lookup_account self a := by
  by_cases h : a = account
  · subst h; simp [lookup_account, alist_lookup_insert_self]
  · simp [lookup_account, h, alist_lookup_insert_other _ _ _ _ h]

theorem add_account_ok_fresh (self : McdStorage) (plugin : Nat) (account : CStr)
    (ops : List WriteBack) (s' : McdStorage)
    (h : mcd_storage_add_account_from_plugin self plugin account ops = .ok s') :
    (lookup_account self account).isSome = false := by
  rw [mcd_storage_add_account_from_plugin] at h
  by_cases hc : (lookup_account self account).isSome = true
  · rw [if_pos hc] at h
    exact absurd h (by simp)
  · simpa using hc

theorem add_account_ok_keys (self : McdStorage) (plugin : Nat) (account : CStr)
    (ops : List WriteBack) (s' : McdStorage)
    (h : mcd_storage_add_account_from_plugin self plugin account ops = .ok s')
    (a : CStr) :
    (lookup_account s' a).isSome =
      ((lookup_account self a).isSome || decide (a = account)) := by
  have hfresh := add_account_ok_fresh self plugin account ops s' h
  rw [mcd_storage_add_account_from_plugin, if_neg (by simp [hfresh])] at h
  have hs : s' = ops.foldl applyWriteBack
      ⟨alist_insert account (mcd_storage_account_new plugin) self.accounts⟩ := by
    cases h; rfl
  subst hs
  rw [foldl_applyWriteBack_isSome, lookup_account_insert_new]
  by_cases ha : a = account
  · subst ha; simp [hfresh]
  · simp [ha]

/-- The account names a list of plugin reports claims, in report order. -/
def reportNames (reports : List (Nat × List (CStr × List WriteBack))) : List CStr :=
  (reports.map (fun pr => pr.2.map (fun x => x.1))).flatten

theorem lpa_ok_keys (p : Nat) (accts : List (CStr × List WriteBack)) :
    ∀ (self s' : McdStorage), load_plugin_accounts p self accts = .ok s' →
    ∀ a, (lookup_account s' a).isSome =
      ((lookup_account self a).isSome ||
        decide (a ∈ accts.map (fun x => x.1))) := by
  induction accts with
  | nil =>
      intro self s' h a
      rw [load_plugin_accounts] at h
      cases h
      simp
  | cons na rest ih =>
      intro self s' h a
      obtain ⟨name, ops⟩ := na
      rw [load_plugin_accounts] at h
      cases hadd : mcd_storage_add_account_from_plugin self p name ops with
      | error e => rw [hadd] at h; exact absurd h (by simp)
      | ok s2 =>
          rw [hadd] at h
          have h2 := ih s2 s' h a
          rw [h2, add_account_ok_keys self p name ops s2 hadd a]
          by_cases ha : a = name
          · subst ha; simp
          · have hb : (a == name) = false := by simp [ha]
            simp [ha, hb, Bool.or_assoc, Bool.or_comm]

theorem lpa_ok_fresh (p : Nat) (accts : List (CStr × List WriteBack)) :
    ∀ (self s' : McdStorage), load_plugin_accounts p self accts = .ok s' →
    (accts.map (fun x => x.1)).Nodup ∧
    ∀ a ∈ accts.map (fun x => x.1), (lookup_account self a).isSome = false := by
  induction accts with
  | nil => intro self s' h; simp
  | cons na rest ih =>
      intro self s' h
      obtain ⟨name, ops⟩ := na
      rw [load_plugin_accounts] at h
      cases hadd : mcd_storage_add_account_from_plugin self p name ops with
      | error e => rw [hadd] at h; exact absurd h (by simp)
      | ok s2 =>
          rw [hadd] at h
          obtain ⟨hnd, hfresh⟩ := ih s2 s' h
          have hkeys := lpa_ok_keys p rest s2 s' h
          constructor
          · simp only [List.map_cons, List.nodup_cons]
            refine ⟨?_, hnd⟩
            intro hmem
            have h1 := hfresh name hmem
            rw [add_account_ok_keys self p name ops s2 hadd name] at h1
            simp at h1
          · intro a hmem
            simp only [List.map_cons, List.mem_cons] at hmem
            rcases hmem with ha | ha
            · subst ha
              exact add_account_ok_fresh self p _ ops s2 hadd
            · have h1 := hfresh a ha
              rw [add_account_ok_keys self p name ops s2 hadd a] at h1
              simp at h1
              simp [h1.1]

theorem load_ok_imp (reports : List (Nat × List (CStr × List WriteBack))) :
    ∀ (self s' : McdStorage), mcd_storage_load self reports = .ok s' →
    (reportNames reports).Nodup ∧
    ∀ a ∈ reportNames reports, (lookup_account self a).isSome = false := by
  induction reports with
  | nil => intro self s' h; simp [reportNames]
  | cons pr rest ih =>
      intro self s' h
      obtain ⟨p, accts⟩ := pr
      rw [mcd_storage_load] at h
      cases hlpa : load_plugin_accounts p self accts with
      | error e => rw [hlpa] at h; exact absurd h (by simp)
      | ok s2 =>
          rw [hlpa] at h
          obtain ⟨hnd1, hfresh1⟩ := lpa_ok_fresh p accts self s2 hlpa
          obtain ⟨hnd2, hfresh2⟩ := ih s2 s' h
          have hkeys := lpa_ok_keys p accts self s2 hlpa
          have hrn : reportNames ((p, accts) :: rest) =
              accts.map (fun x => x.1) ++ reportNames rest := by
            simp [reportNames]
          rw [hrn]
          constructor
          · rw [List.nodup_append]
            refine ⟨hnd1, hnd2, ?_⟩
            intro a ha1 ha2
            have h1 := hfresh2 a ha2
            rw [hkeys a] at h1
            simp [ha1] at h1
          · intro a ha
            rcases List.mem_append.mp ha with ha1 | ha2
            · exact hfresh1 a ha1
            · have h1 := hfresh2 a ha2
              rw [hkeys a] at h1
              simp at h1
              simp [h1.1]

/-- C4: a plugin reporting an account name already present in the cache is
a fatal invariant violation (the `g_return_if_fail` in
`mcd_storage_add_account_from_plugin`, treated as fatal per spec section 7),
both on a direct absorption and anywhere during `mcd_storage_load`; and in
no execution is a cached record overwritten or its owning plugin
reassigned — a successful absorption binds only the new name to the
reporting plugin and every previously cached account keeps its owner, no
matter what write-backs the plugin performs. -/
theorem C4_duplicate_account_fatal :
    (∀ (self : McdStorage) (plugin : Nat) (account : CStr) (ops : List WriteBack),
      (lookup_account self account).isSome = true →
      mcd_storage_add_account_from_plugin self plugin account ops =
        .error .duplicateAccountName) ∧
    (∀ (self : McdStorage) (plugin : Nat) (account : CStr) (ops : List WriteBack)
        (s2 : McdStorage),
      mcd_storage_add_account_from_plugin self plugin account ops = .ok s2 →
      ∀ b, (lookup_account s2 b).map (fun r => r.storage) =
        if b = account then some plugin
        else (lookup_account self b).map (fun r => r.storage)) ∧
    (∀ (self : McdStorage) (reports : List (Nat × List (CStr × List WriteBack))),
      ¬ (reportNames reports).Nodup →
      mcd_storage_load self reports = .error .duplicateAccountName) := by
  refine ⟨?_, ?_, ?_⟩
  · intro self plugin account ops hc
    rw [mcd_storage_add_account_from_plugin, if_pos hc]
  · intro self plugin account ops s2 h b
    have hfresh := add_account_ok_fresh self plugin account ops s2 h
    rw [mcd_storage_add_account_from_plugin, if_neg (by simp [hfresh])] at h
    have hs : s2 = ops.foldl applyWriteBack
        ⟨alist_insert account (mcd_storage_account_new plugin) self.accounts⟩ := by
      cases h; rfl
    subst hs
    rw [foldl_applyWriteBack_owner, lookup_account_insert_new]
    by_cases hb : b = account
    · subst hb; simp [mcd_storage_account_new]
    · simp [hb]
  · intro self reports hnd
    cases hres : mcd_storage_load self reports with
    | ok s' => exact absurd (load_ok_imp reports self s' hres).1 hnd
    | error e => cases e; rfl

/-- C4 at concrete inputs: re-reporting the cached name `"a"` is refused
with the cache intact; two single-account plugins both reporting `"x"`
make the load fail; and absorbing a fresh `"c"` for plugin 7 binds `"c"`
to plugin 7 while account `"a"` keeps its owner, plugin 0. -/
theorem C4_duplicate_account_fatal_witness :
    mcd_storage_add_account_from_plugin demoStorage 3 "a".data [] =
      .error .duplicateAccountName ∧
    mcd_storage_load demoStorage [(5, [("x".data, [])]), (6, [("x".data, [])])] =
      .error .duplicateAccountName ∧
    (lookup_account
        ([].foldl applyWriteBack
          ⟨alist_insert "c".data (mcd_storage_account_new 7) demoStorage.accounts⟩)
        "c".data).map (fun r => r.storage) = some 7 ∧
    (lookup_account
        ([].foldl applyWriteBack
          ⟨alist_insert "c".data (mcd_storage_account_new 7) demoStorage.accounts⟩)
        "a".data).map (fun r => r.storage) = some 0 := by
  refine ⟨?_, ?_, ?_, ?_⟩
  · exact C4_duplicate_account_fatal.1 demoStorage 3 "a".data [] (by decide)
  · exact C4_duplicate_account_fatal.2.2 demoStorage
      [(5, [("x".data, [])]), (6, [("x".data, [])])] (by decide)
  · have h := C4_duplicate_account_fatal.2.1 demoStorage 7 "c".data []
      ([].foldl applyWriteBack
        ⟨alist_insert "c".data (mcd_storage_account_new 7) demoStorage.accounts⟩)
      (by rfl) "c".data
    rw [if_pos rfl] at h
    exact h
  · have h := C4_duplicate_account_fatal.2.1 demoStorage 7 "c".data []
      ([].foldl applyWriteBack
        ⟨alist_insert "c".data (mcd_storage_account_new 7) demoStorage.accounts⟩)
      (by rfl) "a".data
    rw [if_neg (by decide)] at h
    rw [h]
    decide

/-! ### C8: a parameter key never lives in both maps -/

/-- The record invariant from the data model: no key is present in both the
typed and the escaped parameter map. -/
def param_maps_disjoint (sa : McdStorageAccount) : Prop :=
  ∀ k, alist_lookup k sa.parameters = none ∨
    alist_lookup k sa.escaped_parameters = none

/-- The invariant over the whole cache. -/
def storage_param_invariant (self : McdStorage) : Prop :=
  ∀ a sa, lookup_account self a = some sa → param_maps_disjoint sa

theorem storage_update_invariant (self : McdStorage) (account : CStr)
    (sa' : McdStorageAccount) (hinv : storage_param_invariant self)
    (hd : param_maps_disjoint sa') :
    storage_param_invariant (storage_update_account self account sa') := by
  intro b sb hb
  by_cases h : b = account
  · subst h
    rw [lookup_account_update_self] at hb
    injection hb with hb2
    subst hb2
    exact hd
  · rw [lookup_account_update_other _ _ _ _ h] at hb
    exact hinv b sb hb

theorem disj_after_param_write (sa : McdStorageAccount) (p : CStr)
    (value : Option MVariant) (hd : param_maps_disjoint sa) :
    param_maps_disjoint
      { sa with
        parameters :=
          match value with
          | some v => alist_insert p v (alist_remove p sa.parameters)
          | none => alist_remove p sa.parameters,
        escaped_parameters := alist_remove p sa.escaped_parameters } := by
  intro k
  by_cases hk : k = p
  · subst hk
    right
    exact alist_lookup_remove_self k sa.escaped_parameters
  · cases value with
    | none =>
        rcases hd k with h | h
        · left
          dsimp only
          rw [alist_lookup_remove_other _ _ _ hk]
          exact h
        · right
          dsimp only
          rw [alist_lookup_remove_other _ _ _ hk]
          exact h
    | some v =>
        rcases hd k with h | h
        · left
          dsimp only
          rw [alist_lookup_insert_other _ _ _ _ hk,
            alist_lookup_remove_other _ _ _ hk]
          exact h
        · right
          dsimp only
          rw [alist_lookup_remove_other _ _ _ hk]
          exact h

theorem disj_after_val_write (sa : McdStorageAccount) (p : CStr)
    (value : Option CStr) (hd : param_maps_disjoint sa) :
    param_maps_disjoint
      { sa with
        parameters := alist_remove p sa.parameters,
        escaped_parameters :=
          match value with
          | some v => alist_insert p v (alist_remove p sa.escaped_parameters)
          | none => alist_remove p sa.escaped_parameters } := by
  intro k
  by_cases hk : k = p
  · subst hk
    left
    exact alist_lookup_remove_self k sa.parameters
  · cases value with
    | none =>
        rcases hd k with h | h
        · left
          dsimp only
          rw [alist_lookup_remove_other _ _ _ hk]
          exact h
        · right
          dsimp only
          rw [alist_lookup_remove_other _ _ _ hk]
          exact h
    | some v =>
        rcases hd k with h | h
        · left
          dsimp only
          rw [alist_lookup_remove_other _ _ _ hk]
          exact h
        · right
          dsimp only
          rw [alist_lookup_insert_other _ _ _ _ hk,
            alist_lookup_remove_other _ _ _ hk]
          exact h

/-- C8: starting from a cache satisfying the data-model invariant, every
parameter-writing operation — the orchestrator's `mcd_storage_set_parameter`,
the plugin-facing typed `mcpa_set_parameter`, and the plugin-facing escaped
`set_value` — preserves it: no key is ever present in both the typed and
the escaped parameter map; and deleting a parameter (a null value) leaves
the key absent from both maps of the account's record. -/
theorem C8_parameter_maps_disjoint (self : McdStorage)
    (hinv : storage_param_invariant self) :
    (∀ account parameter value, storage_param_invariant
      (mcd_storage_set_parameter self account parameter value).state) ∧
    (∀ account parameter value, storage_param_invariant
      (mcpa_set_parameter self account parameter value)) ∧
    (∀ account key value, storage_param_invariant
      (set_value self account key value)) ∧
    (∀ account parameter sa',
      lookup_account (mcd_storage_set_parameter self account parameter none).state
        account = some sa' →
      alist_lookup parameter sa'.parameters = none ∧
      alist_lookup parameter sa'.escaped_parameters = none) ∧
    (∀ account parameter sa',
      lookup_account (mcpa_set_parameter self account parameter none)
        account = some sa' →
      alist_lookup parameter sa'.parameters = none ∧
      alist_lookup parameter sa'.escaped_parameters = none) ∧
    (∀ account key sa', isParamKey key = true →
      lookup_account (set_value self account key none) account = some sa' →
      alist_lookup (key.drop 6) sa'.parameters = none ∧
      alist_lookup (key.drop 6) sa'.escaped_parameters = none) := by
  refine ⟨?_, ?_, ?_, ?_, ?_, ?_⟩
  · intro account parameter value
    cases hacct : lookup_account self account with
    | none => simp only [mcd_storage_set_parameter, hacct]; exact hinv
    | some sa =>
        simp only [mcd_storage_set_parameter, hacct]
        by_cases hup : set_parameter_updated sa parameter value = true
        · rw [if_pos hup]
          exact storage_update_invariant _ _ _ hinv
            (disj_after_param_write sa parameter value (hinv account sa hacct))
        · rw [if_neg hup]
          exact hinv
  · intro account parameter value
    cases hacct : lookup_account self account with
    | none => simp only [mcpa_set_parameter, hacct]; exact hinv
    | some sa =>
        simp only [mcpa_set_parameter, hacct]
        exact storage_update_invariant _ _ _ hinv
          (disj_after_param_write sa parameter value (hinv account sa hacct))
  · intro account key value
    cases hacct : lookup_account self account with
    | none => simp only [set_value, hacct]; exact hinv
    | some sa =>
        simp only [set_value, hacct]
        by_cases hk : isParamKey key = true
        · rw [if_pos hk]
          exact storage_update_invariant _ _ _ hinv
            (disj_after_val_write sa (key.drop 6) value (hinv account sa hacct))
        · rw [if_neg hk]
          cases value with
          | none =>
              exact storage_update_invariant _ _ _ hinv (hinv account sa hacct)
          | some v =>
              cases hdec : mcd_keyfile_get_variant
                  (match mcd_storage_init_value_for_attribute key with
                   | some t => t
                   | none => .string) v with
              | none =>
                  simp only [hdec]
                  exact storage_update_invariant _ _ _ hinv (hinv account sa hacct)
              | some variant =>
                  simp only [hdec]
                  exact storage_update_invariant _ _ _ hinv (hinv account sa hacct)
  · intro account parameter sa' hlk
    cases hacct : lookup_account self account with
    | none =>
        simp only [mcd_storage_set_parameter, hacct] at hlk
        exact absurd hlk (by simp)
    | some sa =>
        simp only [mcd_storage_set_parameter, hacct] at hlk
        by_cases hup : set_parameter_updated sa parameter none = true
        · rw [if_pos hup] at hlk
          rw [lookup_account_update_self] at hlk
          injection hlk with h2
          subst h2
          exact ⟨alist_lookup_remove_self _ _, alist_lookup_remove_self _ _⟩
        · rw [if_neg hup] at hlk
          dsimp only at hlk
          rw [hacct] at hlk
          injection hlk with h2
          subst h2
          rw [set_parameter_updated] at hup
          cases hov : alist_lookup parameter sa.parameters with
          | some ov => rw [hov] at hup; simp [mcd_nullable_variant_equal] at hup
          | none =>
              rw [hov] at hup
              cases hoe : alist_lookup parameter sa.escaped_parameters with
              | some oe => rw [hoe] at hup; simp [tp_strdiff] at hup
              | none => constructor <;> rfl

  · intro account parameter sa' hlk
    cases hacct : lookup_account self account with
    | none =>
        simp only [mcpa_set_parameter, hacct] at hlk
        exact absurd hlk (by simp)
    | some sa =>
        simp only [mcpa_set_parameter, hacct] at hlk
        rw [lookup_account_update_self] at hlk
        injection hlk with h2
        subst h2
        exact ⟨alist_lookup_remove_self _ _, alist_lookup_remove_self _ _⟩
  · intro account key sa' hk hlk
    cases hacct : lookup_account self account with
    | none =>
        simp only [set_value, hacct] at hlk
        exact absurd hlk (by simp)
    | some sa =>
        simp only [set_value, hacct] at hlk
        rw [if_pos hk] at hlk
        rw [lookup_account_update_self] at hlk
        injection hlk with h2
        subst h2
        exact ⟨alist_lookup_remove_self _ _, alist_lookup_remove_self _ _⟩

/-- C8 at concrete inputs: deleting parameter `"p"` of account `"a"` (which
holds it typed) and parameter `"q"` of account `"b"` (which holds it
escaped) leaves each key absent from both maps, and the resulting caches
satisfy the disjointness invariant at every key of the records involved. -/
theorem C8_parameter_maps_disjoint_witness :
    (∀ sa', lookup_account
        (mcd_storage_set_parameter demoStorage "a".data "p".data none).state
        "a".data = some sa' →
      alist_lookup "p".data sa'.parameters = none ∧
      alist_lookup "p".data sa'.escaped_parameters = none) ∧
    (∀ sa', lookup_account
        (set_value demoStorage "b".data "param-q".data none)
        "b".data = some sa' →
      alist_lookup "q".data sa'.parameters = none ∧
      alist_lookup "q".data sa'.escaped_parameters = none) ∧
    storage_param_invariant
      (mcpa_set_parameter demoStorage "a".data "p".data
        (some (.str "v".data))) := by
  have hinv : storage_param_invariant demoStorage := by
    intro a sa hsa k
    by_cases h1 : a = "a".data
    · subst h1
      rw [show lookup_account demoStorage "a".data =
        some ⟨[], [("p".data, .str "old".data)], [], 0⟩ from by decide] at hsa
      injection hsa with h2
      subst h2
      right
      rfl
    · by_cases h2 : a = "b".data
      · subst h2
        rw [show lookup_account demoStorage "b".data =
          some ⟨[("Enabled".data, .boolean true)], [], [("q".data, "x".data)], 1⟩
          from by decide] at hsa
        injection hsa with h3
        subst h3
        left
        rfl
      · exact absurd hsa (by
          rw [show lookup_account demoStorage a =
            (if a = "a".data then some ⟨[], [("p".data, .str "old".data)], [], 0⟩
             else if a = "b".data then
               some ⟨[("Enabled".data, .boolean true)], [], [("q".data, "x".data)], 1⟩
             else none) from by
            simp [demoStorage, lookup_account, alist_lookup]]
          simp [h1, h2])
  refine ⟨?_, ?_, ?_⟩
  · exact fun sa' h =>
      (C8_parameter_maps_disjoint demoStorage hinv).2.2.2.1 "a".data "p".data sa' h
  · exact fun sa' h =>
      (C8_parameter_maps_disjoint demoStorage hinv).2.2.2.2.2 "b".data
        "param-q".data sa' (by decide) h
  · exact (C8_parameter_maps_disjoint demoStorage hinv).2.1 "a".data "p".data
      (some (.str "v".data))

/-! ### C5: registry ordering -/

open scoped List

/-- Descending priority order. -/
def regSorted (l : List StoragePlugin) : Prop :=
  l.Pairwise (fun a b => a.priority ≥ b.priority)

theorem account_storage_cmp_pos (x y : StoragePlugin) :
    account_storage_cmp x y > 0 ↔ x.priority < y.priority := by
  rw [account_storage_cmp]
  by_cases h1 : x.priority > y.priority
  · rw [if_pos h1]
    constructor <;> intro h <;> omega
  · rw [if_neg h1]
    by_cases h2 : x.priority < y.priority
    · rw [if_pos h2]
      constructor <;> intro h <;> omega
    · rw [if_neg h2]
      constructor <;> intro h <;> omega

theorem mem_insert_sorted (x a : StoragePlugin) (l : List StoragePlugin) :
    a ∈ g_list_insert_sorted x l ↔ a = x ∨ a ∈ l := by
  induction l with
  | nil => simp [g_list_insert_sorted]
  | cons y ys ih =>
      rw [g_list_insert_sorted]
      by_cases hc : account_storage_cmp x y > 0
      · rw [if_pos hc]
        simp [ih]
        tauto
      · rw [if_neg hc]
        simp

theorem insert_sorted_sorted (x : StoragePlugin) (l : List StoragePlugin)
    (h : regSorted l) : regSorted (g_list_insert_sorted x l) := by
  induction l with
  | nil => simp [g_list_insert_sorted, regSorted]
  | cons y ys ih =>
      rw [g_list_insert_sorted]
      by_cases hc : account_storage_cmp x y > 0
      · rw [if_pos hc]
        have hxy : x.priority < y.priority := (account_storage_cmp_pos x y).mp hc
        rw [regSorted, List.pairwise_cons]
        constructor
        · intro a ha
          rcases (mem_insert_sorted x a ys).mp ha with h1 | h1
          · subst h1; omega
          · exact (List.pairwise_cons.mp h).1 a h1
        · exact ih (List.pairwise_cons.mp h).2
      · rw [if_neg hc]
        have hxy : ¬ x.priority < y.priority := fun hlt =>
          hc ((account_storage_cmp_pos x y).mpr hlt)
        rw [regSorted, List.pairwise_cons]
        constructor
        · intro a ha
          rcases List.mem_cons.mp ha with h1 | h1
          · subst h1; omega
          · have := (List.pairwise_cons.mp h).1 a h1
            omega
        · exact h

theorem sublist_insert_sorted (x : StoragePlugin) (l : List StoragePlugin) :
    l <+ g_list_insert_sorted x l := by
  induction l with
  | nil => simp [g_list_insert_sorted]
  | cons y ys ih =>
      rw [g_list_insert_sorted]
      by_cases hc : account_storage_cmp x y > 0
      · rw [if_pos hc]
        exact List.Sublist.cons₂ y ih
      · rw [if_neg hc]
        exact List.sublist_cons_self x (y :: ys)

theorem insert_sorted_tie (x y : StoragePlugin) (l : List StoragePlugin)
    (hx : x ∈ l) (hs : regSorted l) (hp : y.priority = x.priority) :
    [y, x] <+ g_list_insert_sorted y l := by
  induction l with
  | nil => cases hx
  | cons a as ih =>
      rw [g_list_insert_sorted]
      by_cases hc : account_storage_cmp y a > 0
      · rw [if_pos hc]
        have hya : y.priority < a.priority := (account_storage_cmp_pos y a).mp hc
        rcases List.mem_cons.mp hx with h1 | h1
        · subst h1; omega
        · exact List.Sublist.cons a (ih h1 (List.pairwise_cons.mp hs).2)
      · rw [if_neg hc]
        exact List.Sublist.cons₂ y (List.singleton_sublist.mpr hx)

theorem foldl_add_sorted (regs : List StoragePlugin) :
    ∀ acc, regSorted acc → regSorted (regs.foldl add_storage_plugin acc) := by
  induction regs with
  | nil => intro acc h; exact h
  | cons p ps ih =>
      intro acc h
      exact ih (add_storage_plugin acc p) (insert_sorted_sorted p acc h)

theorem foldl_add_sublist (regs : List StoragePlugin)  :
    ∀ (acc : List StoragePlugin) (s : List StoragePlugin), s <+ acc →
    s <+ regs.foldl add_storage_plugin acc := by
  induction regs with
  | nil => intro acc s h; exact h
  | cons p ps ih =>
      intro acc s h
      exact ih (add_storage_plugin acc p) s (h.trans (sublist_insert_sorted p acc))

theorem mem_foldl_add (regs : List StoragePlugin) :
    ∀ (acc : List StoragePlugin) (x : StoragePlugin), x ∈ acc →
    x ∈ regs.foldl add_storage_plugin acc := by
  induction regs with
  | nil => intro acc x h; exact h
  | cons p ps ih =>
      intro acc x h
      exact ih (add_storage_plugin acc p) x ((mem_insert_sorted p x acc).mpr (Or.inr h))

theorem registry_tie_aux (rest : List StoragePlugin) :
    ∀ (acc : List StoragePlugin) (x : StoragePlugin), regSorted acc → x ∈ acc →
    ∀ y ∈ rest, y.priority = x.priority →
    [y, x] <+ rest.foldl add_storage_plugin acc := by
  induction rest with
  | nil =>
      intro acc x hs hx y hy
      cases hy
  | cons q qs ih =>
      intro acc x hs hx y hy hp
      rcases List.mem_cons.mp hy with h1 | h1
      · subst h1
        exact foldl_add_sublist qs (add_storage_plugin acc y) _
          (insert_sorted_tie x y acc hx hs hp)
      · exact ih (add_storage_plugin acc q) x (insert_sorted_sorted q acc hs)
          ((mem_insert_sorted q x acc).mpr (Or.inr hx)) y h1 hp

/-- C5 refuted as stated: registering two plugins of equal priority 5 (ids
1 then 2) yields a registry holding the later-registered plugin first, so
equal-priority plugins do not retain their relative registration order. -/
theorem C5_registry_order_counterexample :
    build_registry
        [⟨1, 5, none, none⟩, ⟨2, 5, none, none⟩] =
      [⟨2, 5, none, none⟩, ⟨1, 5, none, none⟩] ∧
    ¬ ([(⟨1, 5, none, none⟩ : StoragePlugin), ⟨2, 5, none, none⟩] <+
        build_registry [⟨1, 5, none, none⟩, ⟨2, 5, none, none⟩]) := by
  constructor
  · decide
  · decide

/-- C5 (amended): after all registrations the registry is sorted in
descending order of declared priority, and two plugins registered with
equal priority appear in reverse registration order — the later-registered
one first (GLib's `g_list_insert_sorted` inserts a new element before the
elements it compares equal to). -/
theorem C5_registry_order (regs : List StoragePlugin) :
    regSorted (build_registry regs) ∧
    (∀ (l1 l2 l3 : List StoragePlugin) (x y : StoragePlugin),
      regs = l1 ++ x :: l2 ++ y :: l3 → y.priority = x.priority →
      [y, x] <+ build_registry regs) := by
  constructor
  · exact foldl_add_sorted regs [] List.Pairwise.nil
  · intro l1 l2 l3 x y hregs hp
    subst hregs
    rw [build_registry, List.foldl_append, List.foldl_append]
    have hmemx : x ∈ (x :: l2).foldl add_storage_plugin
        (l1.foldl add_storage_plugin []) := by
      rw [List.foldl_cons]
      exact mem_foldl_add l2 _ x ((mem_insert_sorted x x _).mpr (Or.inl rfl))
    exact registry_tie_aux (y :: l3)
      ((x :: l2).foldl add_storage_plugin (l1.foldl add_storage_plugin [])) x
      (foldl_add_sorted (x :: l2) _ (foldl_add_sorted l1 [] List.Pairwise.nil))
      hmemx y (List.mem_cons_self y l3) hp

/-- C5 (amended) at a concrete input: with two priority-5 plugins
registered as id 1 then id 2, the later registration precedes the earlier
one in the registry. -/
theorem C5_registry_order_witness :
    [(⟨2, 5, none, none⟩ : StoragePlugin), ⟨1, 5, none, none⟩] <+
      build_registry [⟨1, 5, none, none⟩, ⟨2, 5, none, none⟩] :=
  (C5_registry_order [⟨1, 5, none, none⟩, ⟨2, 5, none, none⟩]).2
    [] [] [] ⟨1, 5, none, none⟩ ⟨2, 5, none, none⟩ rfl rfl

/-! ### C6: account creation walks plugins in priority order -/

theorem create_np_first_success (l1 : List StoragePlugin) :
    ∀ (l2 : List StoragePlugin) (p : StoragePlugin) (name : CStr),
    (∀ q ∈ l1, q.createResult = none) → p.createResult = some name →
    create_account_no_provider (l1 ++ p :: l2) = some (name, p) := by
  induction l1 with
  | nil =>
      intro l2 p name hfail hp
      simp [create_account_no_provider, hp]
  | cons q qs ih =>
      intro l2 p name hfail hp
      rw [List.cons_append, create_account_no_provider,
        hfail q (List.mem_cons_self q qs)]
      exact ih l2 p name (fun r hr => hfail r (List.mem_cons_of_mem q hr)) hp

theorem create_np_total (stores : List StoragePlugin) :
    (∃ p ∈ stores, p.createResult.isSome = true) →
    (create_account_no_provider stores).isSome = true := by
  induction stores with
  | nil =>
      rintro ⟨p, hp, _⟩
      cases hp
  | cons q qs ih =>
      rintro ⟨p, hp, hps⟩
      rw [create_account_no_provider]
      cases hq : q.createResult with
      | some nm => simp
      | none =>
          rcases List.mem_cons.mp hp with h1 | h1
          · subst h1
            rw [hq] at hps
            cases hps
          · exact ih ⟨p, h1, hps⟩

/-- C6: `mcd_storage_create_account` with no provider attempts plugins
strictly in registry order, which is descending priority order: it returns
the name produced by the first plugin whose create succeeds, discarding the
errors of the plugins that signalled inability before it; a priority-100
plugin is attempted before a priority-50 one whichever was registered
first; and the loop succeeds whenever some registered plugin (the built-in
default backend) always creates an account. -/
theorem C6_create_account_priority :
    (∀ (l1 l2 : List StoragePlugin) (p : StoragePlugin) (name : CStr),
      (∀ q ∈ l1, q.createResult = none) → p.createResult = some name →
      create_account_no_provider (l1 ++ p :: l2) = some (name, p) ∧
      mcd_storage_create_account (l1 ++ p :: l2) none = .ok (name, p)) ∧
    (∀ stores : List StoragePlugin,
      (∃ p ∈ stores, p.createResult.isSome = true) →
      (create_account_no_provider stores).isSome = true) ∧
    (∀ (hi lo : StoragePlugin) (name : CStr) (regs : List StoragePlugin),
      (regs = [hi, lo] ∨ regs = [lo, hi]) →
      hi.priority = 100 → lo.priority = 50 →
      hi.createResult = none → lo.createResult = some name →
      create_account_no_provider (build_registry regs) = some (name, lo)) := by
  refine ⟨?_, create_np_total, ?_⟩
  · intro l1 l2 p name hfail hp
    have h1 := create_np_first_success l1 l2 p name hfail hp
    refine ⟨h1, ?_⟩
    rw [mcd_storage_create_account, h1]
  · intro hi lo name regs hreg hphi hplo hchi hclo
    have hb : build_registry regs = [hi, lo] := by
      rcases hreg with h | h <;> subst h
      · show g_list_insert_sorted lo (g_list_insert_sorted hi []) = [hi, lo]
        rw [g_list_insert_sorted, g_list_insert_sorted,
          if_pos (by rw [account_storage_cmp_pos, hphi, hplo]; omega),
          g_list_insert_sorted]
      · show g_list_insert_sorted hi (g_list_insert_sorted lo []) = [hi, lo]
        rw [g_list_insert_sorted, g_list_insert_sorted,
          if_neg (show ¬ account_storage_cmp hi lo > 0 by
            intro hcon
            have h2 := (account_storage_cmp_pos hi lo).mp hcon
            rw [hphi, hplo] at h2
            omega)]
    rw [hb, create_account_no_provider, hchi, create_account_no_provider, hclo]

/-- C6 at concrete inputs: a priority-100 plugin that signals inability and
a priority-50 plugin that creates `"acct0"`, registered in either order,
give the priority-50 plugin's account; and a registry with a
default-like always-succeeding plugin cannot exhaust. -/
theorem C6_create_account_priority_witness :
    create_account_no_provider
        (build_registry [⟨1, 100, none, none⟩, ⟨2, 50, none, some "acct0".data⟩]) =
      some ("acct0".data, ⟨2, 50, none, some "acct0".data⟩) ∧
    create_account_no_provider
        (build_registry [⟨2, 50, none, some "acct0".data⟩, ⟨1, 100, none, none⟩]) =
      some ("acct0".data, ⟨2, 50, none, some "acct0".data⟩) ∧
    mcd_storage_create_account
        [⟨1, 100, none, none⟩, ⟨2, 50, none, some "acct0".data⟩] none =
      .ok ("acct0".data, ⟨2, 50, none, some "acct0".data⟩) ∧
    (create_account_no_provider
        [⟨1, 100, none, none⟩, ⟨0, 0, none, some "fallback0".data⟩]).isSome = true := by
  refine ⟨?_, ?_, ?_, ?_⟩
  · exact C6_create_account_priority.2.2 ⟨1, 100, none, none⟩
      ⟨2, 50, none, some "acct0".data⟩ "acct0".data _ (Or.inl rfl)
      rfl rfl rfl rfl
  · exact C6_create_account_priority.2.2 ⟨1, 100, none, none⟩
      ⟨2, 50, none, some "acct0".data⟩ "acct0".data _ (Or.inr rfl)
      rfl rfl rfl rfl
  · exact (C6_create_account_priority.1 [⟨1, 100, none, none⟩] []
      ⟨2, 50, none, some "acct0".data⟩ "acct0".data
      (by intro q hq; simp at hq; subst hq; rfl) rfl).2
  · exact C6_create_account_priority.2.1
      [⟨1, 100, none, none⟩, ⟨0, 0, none, some "fallback0".data⟩]
      ⟨⟨0, 0, none, some "fallback0".data⟩, by simp, rfl⟩

/-! ### C7: dispatch preference and per-call capability probing -/

/-- C7: for a cached account, `update_storage` follows the preference order
delete / typed / untyped: a null escaped form (i.e. a null new value) makes
a whole-key delete call; otherwise the typed `set_attribute` (for plain
keys) or typed `set_parameter` (for `param-` keys, with the prefix
stripped) is attempted for this specific invocation, and the untyped
escaped-string `set` is used exactly when that typed call returns false
(unimplemented); the dispatch always produces one of these calls and never
an error.  Moreover each cache-changing write hands `update_storage`
exactly these arguments, and — because `mcd_storage_set_attribute` /
`mcd_storage_set_parameter` compute their flag and the new cache before
dispatching, without consulting the plugin — a typed call being
unsupported is never surfaced to the external caller. -/
theorem C7_dispatch_preference (env : Nat → PluginCaps) (self : McdStorage)
    (args : DispatchArgs) (sa : McdStorageAccount)
    (hacct : lookup_account self args.account = some sa) :
    (args.escaped = none → update_storage env self args = some .deleteCall) ∧
    (∀ e v, args.escaped = some e → args.variant = some v →
      (isParamKey args.key = false →
        ((env sa.storage).set_attribute args.account args.key v = true →
          update_storage env self args = some .typedAttributeCall) ∧
        ((env sa.storage).set_attribute args.account args.key v = false →
          update_storage env self args =
            some (.untypedSetCall ((env sa.storage).set args.account args.key e)))) ∧
      (isParamKey args.key = true →
        ((env sa.storage).set_parameter args.account (args.key.drop 6) v = true →
          update_storage env self args = some .typedParameterCall) ∧
        ((env sa.storage).set_parameter args.account (args.key.drop 6) v = false →
          update_storage env self args =
            some (.untypedSetCall ((env sa.storage).set args.account args.key e))))) ∧
    (update_storage env self args).isSome = true ∧
    (∀ (account key : CStr) (value : Option MVariant) (sa2 : McdStorageAccount),
      lookup_account self account = some sa2 → isParamKey key = false →
      (mcd_storage_set_attribute self account key value).updated = true →
      (mcd_storage_set_attribute self account key value).dispatched =
        some ⟨account, key, value, value.map mcd_keyfile_escape_value⟩) ∧
    (∀ (account parameter : CStr) (value : Option MVariant)
        (sa2 : McdStorageAccount),
      lookup_account self account = some sa2 →
      (mcd_storage_set_parameter self account parameter value).updated = true →
      (mcd_storage_set_parameter self account parameter value).dispatched =
        some ⟨account, paramKeyOf parameter, value,
          value.map mcd_keyfile_escape_value⟩) := by
  obtain ⟨a0, k0, v0, e0⟩ := args
  dsimp only at hacct
  refine ⟨?_, ?_, ?_, ?_, ?_⟩
  · intro he
    dsimp only at he
    subst he
    simp only [update_storage, hacct]
  · intro e v he hv
    dsimp only at he hv
    subst he
    subst hv
    constructor
    · intro hp
      constructor
      · intro hcap
        simp [update_storage, hacct, hp, hcap]
      · intro hcap
        simp [update_storage, hacct, hp, hcap]
    · intro hp
      constructor
      · intro hcap
        simp [update_storage, hacct, hp, hcap]
      · intro hcap
        simp [update_storage, hacct, hp, hcap]
  · simp only [update_storage, hacct]
    cases e0 <;> simp
  · intro account key value sa2 hacct2 hp hupd
    simp only [mcd_storage_set_attribute, hp, hacct2] at hupd ⊢
    by_cases heq : mcd_nullable_variant_equal
        (alist_lookup key sa2.attributes) value = true
    · rw [if_pos heq] at hupd
      simp at hupd
    · rw [if_neg heq] at hupd ⊢
      simp
  · intro account parameter value sa2 hacct2 hupd
    simp only [mcd_storage_set_parameter, hacct2] at hupd ⊢
    by_cases hup : set_parameter_updated sa2 parameter value = true
    · simp [hup]
    · rw [if_neg hup] at hupd
      simp at hupd

/-- A capability assignment used for concrete dispatch checks: typed
attribute calls accepted, typed parameter calls unimplemented, untyped set
accepted. -/
def demoEnv : Nat → PluginCaps :=
  fun _ => ⟨fun _ _ _ => true, fun _ _ _ => false, fun _ _ _ => true⟩

/-- C7 at concrete inputs: a null value dispatches a delete; a typed
attribute write uses the typed call when the plugin accepts it; a typed
parameter write falls back to the untyped set when the typed call is
unimplemented; and the changed parameter write hands dispatch exactly the
`param-`-prefixed key with both the typed and escaped forms. -/
theorem C7_dispatch_preference_witness :
    update_storage demoEnv demoStorage ⟨"a".data, "Enabled".data, none, none⟩ =
      some .deleteCall ∧
    update_storage demoEnv demoStorage
        ⟨"a".data, "Enabled".data, some (.boolean true),
         some (mcd_keyfile_escape_value (.boolean true))⟩ =
      some .typedAttributeCall ∧
    update_storage demoEnv demoStorage
        ⟨"a".data, "param-p".data, some (.str "v".data),
         some (mcd_keyfile_escape_value (.str "v".data))⟩ =
      some (.untypedSetCall true) ∧
    (mcd_storage_set_parameter demoStorage "a".data "p".data
        (some (.str "new".data))).dispatched =
      some ⟨"a".data, paramKeyOf "p".data, some (.str "new".data),
        some (mcd_keyfile_escape_value (.str "new".data))⟩ := by
  have hsa : lookup_account demoStorage "a".data =
      some ⟨[], [("p".data, .str "old".data)], [], 0⟩ := by decide
  refine ⟨?_, ?_, ?_, ?_⟩
  · exact (C7_dispatch_preference demoEnv demoStorage
      ⟨"a".data, "Enabled".data, none, none⟩ _ hsa).1 rfl
  · exact (((C7_dispatch_preference demoEnv demoStorage
      ⟨"a".data, "Enabled".data, some (.boolean true),
       some (mcd_keyfile_escape_value (.boolean true))⟩ _ hsa).2.1
      (mcd_keyfile_escape_value (.boolean true)) (.boolean true) rfl rfl).1
      (by decide)).1 rfl
  · exact (((C7_dispatch_preference demoEnv demoStorage
      ⟨"a".data, "param-p".data, some (.str "v".data),
       some (mcd_keyfile_escape_value (.str "v".data))⟩ _ hsa).2.1
      (mcd_keyfile_escape_value (.str "v".data)) (.str "v".data) rfl rfl).2
      (by decide)).2 rfl
  · exact (C7_dispatch_preference demoEnv demoStorage
      ⟨"a".data, "Enabled".data, none, none⟩ _ hsa).2.2.2.2
      "a".data "p".data (some (.str "new".data)) _ hsa (by decide)

/-! ### C9: identifier normalization degrades gracefully -/

/-- C9: `identify_account` completes with the normalized identifier on
success; when the remote peer reports not-implemented, or the service is
unknown/unreachable, it completes successfully with the raw `"account"`
parameter value from the supplied parameters (or the literal string
`"account"` when that parameter is absent); any other remote failure, and
a failure to create the protocol proxy, is propagated as an error. -/
theorem C9_identify_account (parameters : List (CStr × MVariant))
    (protocolNew : Except IdentifyError Unit)
    (response : Except IdentifyError CStr) :
    (∀ ident, protocolNew = .ok () → response = .ok ident →
      identify_account_async parameters protocolNew response = .ok ident) ∧
    (protocolNew = .ok () →
      (response = .error .notImplemented ∨ response = .error .serviceUnknown) →
      identify_account_async parameters protocolNew response =
        .ok (identifyBase parameters) ∧
      (∀ s, alist_lookup "account".data parameters = some (.str s) →
        identify_account_async parameters protocolNew response = .ok s) ∧
      (alist_lookup "account".data parameters = none →
        identify_account_async parameters protocolNew response =
          .ok "account".data)) ∧
    (∀ code, protocolNew = .ok () → response = .error (.other code) →
      identify_account_async parameters protocolNew response =
        .error (.other code)) ∧
    (∀ e, protocolNew = .error e →
      identify_account_async parameters protocolNew response = .error e) := by
  refine ⟨?_, ?_, ?_, ?_⟩
  · intro ident hpn hres
    subst hpn
    subst hres
    rfl
  · intro hpn hres
    subst hpn
    have hcb : identify_account_async parameters (.ok ()) response =
        .ok (identifyBase parameters) := by
      rcases hres with h | h <;> subst h <;> rfl
    refine ⟨hcb, ?_, ?_⟩
    · intro s hs
      rw [hcb]
      rw [show identifyBase parameters = s from by rw [identifyBase, hs]]
    · intro hs
      rw [hcb]
      rw [show identifyBase parameters = "account".data from by
        rw [identifyBase, hs]]
  · intro code hpn hres
    subst hpn
    subst hres
    rfl
  · intro e hpn
    subst hpn
    rfl

/-- C9 at concrete inputs: success passes the identification through; a
not-implemented peer yields the raw `"account"` parameter; an unknown
service with no `"account"` parameter yields the literal `"account"`; and
an unrelated error code propagates. -/
theorem C9_identify_account_witness :
    identify_account_async [("account".data, .str "fred@example".data)]
        (.ok ()) (.ok "normal".data) = .ok "normal".data ∧
    identify_account_async [("account".data, .str "fred@example".data)]
        (.ok ()) (.error .notImplemented) = .ok "fred@example".data ∧
    identify_account_async [("password".data, .str "secret".data)]
        (.ok ()) (.error .serviceUnknown) = .ok "account".data ∧
    identify_account_async [("account".data, .str "fred@example".data)]
        (.ok ()) (.error (.other 42)) = .error (.other 42) := by
  refine ⟨?_, ?_, ?_, ?_⟩
  · exact (C9_identify_account [("account".data, .str "fred@example".data)]
      (.ok ()) (.ok "normal".data)).1 "normal".data rfl rfl
  · exact ((C9_identify_account [("account".data, .str "fred@example".data)]
      (.ok ()) (.error .notImplemented)).2.1 rfl (Or.inl rfl)).2.1
      "fred@example".data (by decide)
  · exact ((C9_identify_account [("password".data, .str "secret".data)]
      (.ok ()) (.error .serviceUnknown)).2.1 rfl (Or.inr rfl)).2.2 (by decide)
  · exact (C9_identify_account [("account".data, .str "fred@example".data)]
      (.ok ()) (.error (.other 42))).2.2.1 42 rfl rfl

/-! ### C10: account enumeration requires a non-empty attribute map -/

theorem alist_lookup_iff_mem {α : Type} (l : List (CStr × α))
    (hnd : (l.map Prod.fst).Nodup) (k : CStr) (v : α) :
    alist_lookup k l = some v ↔ (k, v) ∈ l := by
  induction l with
  | nil => simp [alist_lookup]
  | cons kv rest ih =>
      obtain ⟨k2, w⟩ := kv
      simp only [List.map_cons, List.nodup_cons] at hnd
      by_cases hk : k = k2
      · subst hk
        rw [alist_lookup, if_pos rfl]
        constructor
        · intro h
          injection h with h2
          subst h2
          exact List.mem_cons_self _ _
        · intro h
          rcases List.mem_cons.mp h with h1 | h1
          · injection h1 with h2 h3
            subst h3
            rfl
          · exact absurd (List.mem_map.mpr ⟨(k, v), h1, rfl⟩) hnd.1
      · rw [alist_lookup, if_neg hk, ih hnd.2]
        constructor
        · exact fun h => List.mem_cons_of_mem _ h
        · intro h
          rcases List.mem_cons.mp h with h1 | h1
          · injection h1 with h2 h3
            exact absurd h2 hk
          · exact h1

/-- C10: `mcd_storage_dup_accounts` returns exactly the cached account
names whose attribute map is non-empty; a cached account holding no
attributes is omitted even though reads on it reach the normal
per-record lookups (failing with not-stored rather than
account-does-not-exist) and writes on it succeed. -/
theorem C10_dup_accounts (self : McdStorage)
    (hnd : (self.accounts.map Prod.fst).Nodup) :
    (∀ a, a ∈ mcd_storage_dup_accounts self ↔
      ∃ sa, lookup_account self a = some sa ∧ sa.attributes ≠ []) ∧
    (∀ a sa, lookup_account self a = some sa → sa.attributes = [] →
      a ∉ mcd_storage_dup_accounts self ∧
      (∀ k t, isParamKey k = false →
        mcd_storage_get_attribute self a k t = .error .notStored) ∧
      (∀ k v, isParamKey k = false →
        (mcd_storage_set_attribute self a k (some v)).updated = true)) := by
  have hmain : ∀ a, a ∈ mcd_storage_dup_accounts self ↔
      ∃ sa, lookup_account self a = some sa ∧ sa.attributes ≠ [] := by
    intro a
    rw [mcd_storage_dup_accounts]
    constructor
    · intro h
      obtain ⟨kv, hkv, hfst⟩ := List.mem_map.mp h
      obtain ⟨hmem, hpred⟩ := List.mem_filter.mp hkv
      refine ⟨kv.2, ?_, ?_⟩
      · rw [lookup_account, alist_lookup_iff_mem self.accounts hnd]
        rw [← hfst]
        exact hmem
      · intro hnil
        rw [hnil] at hpred
        simp at hpred
    · rintro ⟨sa, hlk, hne⟩
      rw [lookup_account, alist_lookup_iff_mem self.accounts hnd] at hlk
      refine List.mem_map.mpr ⟨(a, sa), List.mem_filter.mpr ⟨hlk, ?_⟩, rfl⟩
      simp
      cases hsa : sa.attributes with
      | nil => exact absurd hsa hne
      | cons x xs => simp
  refine ⟨hmain, ?_⟩
  intro a sa hlk hnil
  refine ⟨?_, ?_, ?_⟩
  · intro hmem
    obtain ⟨sa2, hlk2, hne2⟩ := (hmain a).mp hmem
    rw [hlk] at hlk2
    injection hlk2 with h2
    subst h2
    exact hne2 hnil
  · intro k t hp
    rw [mcd_storage_get_attribute, if_neg (by simp [hp]), hlk]
    dsimp only
    rw [hnil]
    rfl
  · intro k v hp
    simp [mcd_storage_set_attribute, hp, hlk, hnil, alist_lookup,
      mcd_nullable_variant_equal]

/-- C10 at concrete inputs: of the two cached accounts, only `"b"` (which
has an attribute) is enumerated; `"a"` (cached, attribute-less, holding a
parameter) is omitted while its reads reach not-stored and its writes
report changed. -/
theorem C10_dup_accounts_witness :
    ("b".data ∈ mcd_storage_dup_accounts demoStorage) ∧
    ("a".data ∉ mcd_storage_dup_accounts demoStorage) ∧
    mcd_storage_get_attribute demoStorage "a".data "DisplayName".data .string =
      .error .notStored ∧
    (mcd_storage_set_attribute demoStorage "a".data "DisplayName".data
        (some (.str "Fred".data))).updated = true := by
  have hnd : (demoStorage.accounts.map Prod.fst).Nodup := by decide
  have hsa : lookup_account demoStorage "a".data =
      some ⟨[], [("p".data, .str "old".data)], [], 0⟩ := by decide
  refine ⟨?_, ?_, ?_, ?_⟩
  · exact ((C10_dup_accounts demoStorage hnd).1 "b".data).mpr
      ⟨⟨[("Enabled".data, .boolean true)], [], [("q".data, "x".data)], 1⟩,
       by decide, by decide⟩
  · exact ((C10_dup_accounts demoStorage hnd).2 "a".data
      ⟨[], [("p".data, .str "old".data)], [], 0⟩ hsa rfl).1
  · exact ((C10_dup_accounts demoStorage hnd).2 "a".data
      ⟨[], [("p".data, .str "old".data)], [], 0⟩ hsa rfl).2.1
      "DisplayName".data .string (by decide)
  · exact ((C10_dup_accounts demoStorage hnd).2 "a".data
      ⟨[], [("p".data, .str "old".data)], [], 0⟩ hsa rfl).2.2
      "DisplayName".data (.str "Fred".data) (by decide)
